import Mathlib

/-!
Shallow embedding of the workflow-orchestration core of the `safeflow`
repository (Python), for checking the natural-language specification
against the code.

Embedded modules:
* `safeflow/orchestration/models.py`    — status enums, `WorkflowState`, `NodeResult`, …
* `safeflow/orchestration/nodes.py`     — the node functions
* `safeflow/orchestration/engine.py`    — `OrchestrationEngine._execute_simple_mode`,
  `pause_workflow`, `resume_workflow`, `_save_checkpoint`, `_load_checkpoint`
* `safeflow/orchestration/scheduler.py` — `TaskScheduler.schedule_sequential`,
  `schedule_parallel`, `_execute_single_task`
* `safeflow/services/tool_service.py`   — `ToolService.scan_with_tool`,
  `scan_with_multiple_tools`
* `safeflow/services/tool_registry.py`  — `ToolRegistry` lookup / `get_tool_ids`

Modelling conventions:
* Python `datetime` values do not influence any verified property, so
  timestamp/duration fields are omitted from the state records (C9 uses a
  separate explicit cost model for elapsed time).
* `vuln.model_dump()` dictionaries are modelled by the `Vuln` record; a
  Python `dict.get(key, default)` on a possibly-missing key is modelled by
  `Option` fields with `Option.getD`.
* Adapter behaviour (`adapter.run(request)`) is deterministic per scenario
  and modelled as an `Except` outcome stored in the registry entry.
* `schemas/vulnerability.py` is not present under `src/`; the shape of the
  severity / confidence sub-dictionaries is modelled from the spec (§3 data
  model) and from the construction site in
  `src/safeflow/adapters/semgrep_adapter.py` (lines 316–369).
-/

namespace SafeFlow

/-- `TaskStatus` enum from `safeflow/orchestration/models.py`. -/
inductive TaskStatus where
  | PENDING
  | RUNNING
  | SUCCESS
  | FAILED
  | RETRY
  | PAUSED
  | CANCELLED
  | SKIPPED
deriving DecidableEq, Repr

/-- `WorkflowType` enum from `safeflow/orchestration/models.py`. -/
inductive WorkflowType where
  | CODE_COMMIT
  | DEPENDENCY_UPDATE
  | EMERGENCY_VULN
  | RELEASE_REGRESSION
  | CUSTOM
deriving DecidableEq, Repr

/-- `NodeType` enum from `safeflow/orchestration/models.py`. -/
inductive NodeType where
  | INITIALIZE
  | SCAN
  | PARALLEL_SCAN
  | COLLECT
  | VALIDATE
  | HUMAN_REVIEW
  | RETRY
  | FINALIZE
deriving DecidableEq, Repr

/-- The `severity` sub-dictionary of a dumped vulnerability.
Modelled from the spec: `schemas/vulnerability.py` is absent from `src/`;
per spec §3 a severity holds `{level, numeric score, exploitability}` and
per `semgrep_adapter.py` it is built as `Severity(level, score,
exploitability)` — in particular it has no `confidence_score` key.  The
`confidence_score` field below models the *dictionary key* of that name
that `validation_node` looks up: it is `none` on every adapter-produced
finding and can only be `some` on a hand-crafted dictionary. -/
structure SeverityMap where
  level : Option String := none
  score : Option Rat := none
  confidence_score : Option Rat := none
deriving DecidableEq, Repr

/-- The `confidence` sub-dictionary of a dumped vulnerability.
Modelled from the spec (§3: confidence `{score ∈ [0,100], reason}`) and
from the `Confidence(score, reason)` construction in
`semgrep_adapter.py`. -/
structure ConfidenceMap where
  score : Option Rat := none
deriving DecidableEq, Repr

/-- A dumped vulnerability dictionary (`vuln.model_dump()` plus the
`source_tool` key the scan nodes write into it).  Only the keys the
orchestration code reads are modelled. -/
structure Vuln where
  vulnerability_id : String := ""
  severity : Option SeverityMap := none
  confidence : Option ConfidenceMap := none
  source_tool : Option String := none
deriving DecidableEq, Repr

/-- `ToolExecutionResult` from `models.py` (timestamp fields omitted). -/
structure ToolExecutionResult where
  tool_id : String
  tool_name : String
  status : TaskStatus
  vulnerability_count : Nat := 0
  error : Option String := none
deriving DecidableEq, Repr

/-- The `output` dictionary of a `NodeResult`.  It is a free-form
`Dict[str, Any]` in Python; the numeric keys the nodes write and the
claims read are modelled as optional fields. -/
structure NodeOutput where
  tool_count : Option Nat := none
  total_tools : Option Nat := none
  successful_tools : Option Nat := none
  total_vulnerabilities : Option Nat := none
  original_count : Option Nat := none
  validated_count : Option Nat := none
  filtered_count : Option Nat := none
deriving DecidableEq, Repr

/-- `NodeResult` from `models.py` (timestamp fields omitted). -/
structure NodeResult where
  node_name : String
  node_type : NodeType
  status : TaskStatus
  tool_results : List ToolExecutionResult := []
  error : Option String := none
  retry_count : Nat := 0
  output : NodeOutput := {}
deriving DecidableEq, Repr

/-- `WorkflowContext` from `models.py` (id and type; the config map is
modelled as string-keyed rationals, enough for the threshold claims). -/
structure WorkflowContext where
  workflow_id : String := ""
  workflow_type : WorkflowType
  config : List (String × Rat) := []
deriving DecidableEq, Repr

/-- `ScanTarget` from `models.py` (path is the only field the
orchestration code branches on). -/
structure ScanTarget where
  path : String
deriving DecidableEq, Repr

/-- `WorkflowState` from `models.py` (timestamp fields omitted;
`human_review_data` is reduced to its `total_vulnerabilities` entry). -/
structure WorkflowState where
  context : WorkflowContext
  target : ScanTarget
  status : TaskStatus := .PENDING
  current_node : Option String := none
  tool_ids : List String := []
  node_results : List NodeResult := []
  vulnerabilities : List Vuln := []
  errors : List String := []
  retry_count : Nat := 0
  checkpoint_id : Option Nat := none
  requires_human_review : Bool := false
  human_review_data : Option Nat := none
deriving DecidableEq, Repr

/-- `WorkflowState.add_node_result`: appends the result, moves
`current_node`, and appends an error line when the result failed. -/
def WorkflowState.add_node_result (st : WorkflowState) (r : NodeResult) : WorkflowState :=
  let st1 := { st with
    node_results := st.node_results ++ [r],
    current_node := some r.node_name }
  if r.status = .FAILED then
    { st1 with errors := st1.errors ++
        ["节点 " ++ r.node_name ++ " 失败: " ++ r.error.getD "None"] }
  else st1

/-- `WorkflowState.add_error`. -/
def WorkflowState.add_error (st : WorkflowState) (e : String) : WorkflowState :=
  { st with errors := st.errors ++ [e] }

/-- `WorkflowState.is_completed`. -/
def WorkflowState.is_completed (st : WorkflowState) : Bool :=
  st.status = .SUCCESS ∨ st.status = .FAILED ∨ st.status = .CANCELLED

/-- `WorkflowState.is_paused`. -/
def WorkflowState.is_paused (st : WorkflowState) : Bool :=
  st.status = .PAUSED

/-- One registered adapter, as seen through the orchestration layer: its
id, display name, the (deterministic, scenario-fixed) outcome of
`adapter.run(request)`, and an abstract execution duration in
milliseconds used by the C9 cost model. -/
structure AdapterModel where
  tool_id : String
  tool_name : String
  run_outcome : Except String (List Vuln)
  duration_ms : Nat := 0

/-- `ToolRegistry`: an insertion-ordered map from tool id to adapter
(Python `Dict` preserves insertion order). -/
def Registry := List AdapterModel

/-- `ToolRegistry.get_adapter`. -/
def Registry.get_adapter (reg : Registry) (tool_id : String) : Option AdapterModel :=
  reg.find? (fun a => a.tool_id = tool_id)

/-- `ToolRegistry.get_tool_ids`: the registered ids in insertion order. -/
def Registry.get_tool_ids (reg : Registry) : List String :=
  reg.map (fun a => a.tool_id)

/-- `ScanResponse` from `tool_service.py` (the `metadata` dictionary is
reduced to its `tool_name` entry, the only key the nodes read). -/
structure ScanResponse where
  tool_id : String
  success : Bool
  vulnerabilities : List Vuln := []
  error : Option String := none
  meta_tool_name : Option String := none
deriving DecidableEq, Repr

/-- `ToolService.scan_with_tool`: unknown tool and adapter exceptions
become `success := false` responses; a successful run wraps the
findings. -/
def scan_with_tool (reg : Registry) (tool_id : String) : ScanResponse :=
  match reg.get_adapter tool_id with
  | none =>
      { tool_id := tool_id, success := false,
        error := some ("工具不存在: " ++ tool_id) }
  | some a =>
      match a.run_outcome with
      | .ok vulns =>
          { tool_id := tool_id, success := true, vulnerabilities := vulns,
            meta_tool_name := some a.tool_name }
      | .error e =>
          { tool_id := tool_id, success := false,
            error := some ("适配器错误: " ++ e) }

/-- `ToolService.scan_with_multiple_tools`: empty `tool_ids` falls back
to all registered ids; then one `scan_with_tool` call per id, in order
(a plain sequential `for` loop in the source). -/
def scan_with_multiple_tools (reg : Registry) (tool_ids : List String) :
    List ScanResponse :=
  let ids := if tool_ids.isEmpty then reg.get_tool_ids else tool_ids
  ids.map (scan_with_tool reg)

/-! ### Node functions (`safeflow/orchestration/nodes.py`)

Each node function takes the registry (Python: the global registry) and a
state and returns the updated state.  The `try/except` bodies of the node
functions can raise only where noted (the `initialize` node on an empty
target path); all other exception branches are unreachable for the data
reachable in this model, because `scan_with_tool` already converts adapter
failures into `success = false` responses. -/

/-- `initialize_node`: validates the target path, fills `tool_ids` from
the registry when the caller gave none, sets RUNNING, appends a node
result.  An empty path raises `ValueError` and takes the except branch:
FAILED node result, run status FAILED, error appended. -/
def initialize_node (reg : Registry) (st : WorkflowState) : WorkflowState :=
  if st.target.path = "" then
    let msg := "初始化失败: 扫描目标路径不能为空"
    let st1 := st.add_node_result
      { node_name := "initialize", node_type := .INITIALIZE,
        status := .FAILED, error := some msg }
    let st2 := { st1 with status := TaskStatus.FAILED }
    st2.add_error msg
  else
    let tool_ids := if st.tool_ids.isEmpty then reg.get_tool_ids else st.tool_ids
    let st1 := { st with
      tool_ids := tool_ids,
      status := TaskStatus.RUNNING,
      current_node := some "initialize" }
    st1.add_node_result
      { node_name := "initialize", node_type := .INITIALIZE,
        status := .SUCCESS,
        output := { tool_count := some tool_ids.length } }

/-- The per-tool step of `single_scan_node`'s loop: the
`ToolExecutionResult` recorded for the tool and the vulnerabilities
collected from it (tagged with `source_tool`; nothing collected when the
response is not successful). -/
def scanToolStep (reg : Registry) (tool_id : String) :
    ToolExecutionResult × List Vuln :=
  let response := scan_with_tool reg tool_id
  ({ tool_id := tool_id,
     tool_name := response.meta_tool_name.getD tool_id,
     status := if response.success then .SUCCESS else .FAILED,
     vulnerability_count := response.vulnerabilities.length,
     error := response.error },
   if response.success then
     response.vulnerabilities.map (fun v => { v with source_tool := some tool_id })
   else [])

/-- The `NodeResult` appended by `single_scan_node`. -/
def singleScanResult (reg : Registry) (st : WorkflowState) : NodeResult :=
  let steps := st.tool_ids.map (scanToolStep reg)
  let tool_results := steps.map Prod.fst
  let all_vulns := (steps.map Prod.snd).flatten
  { node_name := "single_scan", node_type := .SCAN, status := .SUCCESS,
    tool_results := tool_results,
    output := {
      total_tools := some st.tool_ids.length,
      successful_tools :=
        some (tool_results.countP (fun r => r.status = .SUCCESS)),
      total_vulnerabilities := some all_vulns.length } }

/-- `single_scan_node`: runs every tool of `state.tool_ids` sequentially
through the tool service, records one `ToolExecutionResult` per tool,
extends `state.vulnerabilities` with the findings of the successful
tools, and appends a SUCCESS node result (the node status does not depend
on the per-tool outcomes). -/
def single_scan_node (reg : Registry) (st : WorkflowState) : WorkflowState :=
  let steps := st.tool_ids.map (scanToolStep reg)
  let all_vulns := (steps.map Prod.snd).flatten
  let st1 := { st with vulnerabilities := st.vulnerabilities ++ all_vulns }
  st1.add_node_result (singleScanResult reg st)

/-- The per-response step of `parallel_scan_node`'s loop. -/
def parallelResponseStep (response : ScanResponse) :
    ToolExecutionResult × List Vuln :=
  ({ tool_id := response.tool_id,
     tool_name := response.meta_tool_name.getD response.tool_id,
     status := if response.success then .SUCCESS else .FAILED,
     vulnerability_count := response.vulnerabilities.length,
     error := response.error },
   if response.success then
     response.vulnerabilities.map
       (fun v => { v with source_tool := some response.tool_id })
   else [])

/-- The `NodeResult` appended by `parallel_scan_node`. -/
def parallelScanResult (reg : Registry) (st : WorkflowState) : NodeResult :=
  let responses := scan_with_multiple_tools reg st.tool_ids
  let steps := responses.map parallelResponseStep
  let tool_results := steps.map Prod.fst
  let all_vulns := (steps.map Prod.snd).flatten
  { node_name := "parallel_scan", node_type := .PARALLEL_SCAN,
    status := .SUCCESS,
    tool_results := tool_results,
    output := {
      total_tools := some responses.length,
      successful_tools := some (responses.countP (fun r => r.success)),
      total_vulnerabilities := some all_vulns.length } }

/-- `parallel_scan_node`: obtains one response per tool from
`ToolService.scan_with_multiple_tools` (which the source runs as a
sequential loop), records tool results, extends the vulnerability list,
and appends a SUCCESS node result. -/
def parallel_scan_node (reg : Registry) (st : WorkflowState) : WorkflowState :=
  let responses := scan_with_multiple_tools reg st.tool_ids
  let steps := responses.map parallelResponseStep
  let all_vulns := (steps.map Prod.snd).flatten
  let st1 := { st with vulnerabilities := st.vulnerabilities ++ all_vulns }
  st1.add_node_result (parallelScanResult reg st)

/-- `result_collection_node`: aggregates counts into the node output;
does not change the vulnerability list. -/
def result_collection_node (_reg : Registry) (st : WorkflowState) : WorkflowState :=
  st.add_node_result
    { node_name := "collect", node_type := .COLLECT, status := .SUCCESS,
      output := { total_vulnerabilities := some st.vulnerabilities.length } }

/-- The literal threshold `0.3` of `validation_node` (written as a
normalized rational so that closed evaluations reduce;
`confidenceThreshold_eq` checks it equals `3 / 10`). -/
def confidenceThreshold : Rat := ⟨3, 10, by decide, by decide⟩

/-- The keep-condition of `validation_node`:
`vuln.get("severity", {}).get("confidence_score", 0) >= 0.3`.
The threshold `0.3` is a literal in the source and the key looked up is
`confidence_score` *inside the severity dictionary*. -/
def validationKeeps (v : Vuln) : Bool :=
  ((v.severity.getD {}).confidence_score).getD 0 ≥ confidenceThreshold

/-- `validation_node`: keeps the vulnerabilities satisfying
`validationKeeps`, drops the rest, and records original / validated /
filtered counts in the node output. -/
def validation_node (_reg : Registry) (st : WorkflowState) : WorkflowState :=
  let validated := st.vulnerabilities.filter validationKeeps
  let filtered_count :=
    st.vulnerabilities.countP (fun v => ¬ validationKeeps v)
  let st1 := { st with vulnerabilities := validated }
  st1.add_node_result
    { node_name := "validate", node_type := .VALIDATE, status := .SUCCESS,
      output := {
        original_count := some st.vulnerabilities.length,
        validated_count := some validated.length,
        filtered_count := some filtered_count } }

/-- `human_review_node`: sets `requires_human_review`, pauses the run,
fills the review summary, and appends a PAUSED node result. -/
def human_review_node (_reg : Registry) (st : WorkflowState) : WorkflowState :=
  let st1 := { st with
    requires_human_review := true,
    status := TaskStatus.PAUSED,
    human_review_data := some st.vulnerabilities.length }
  st1.add_node_result
    { node_name := "human_review", node_type := .HUMAN_REVIEW,
      status := .PAUSED,
      output := { total_vulnerabilities := some st.vulnerabilities.length } }

/-- `finalize_node`: promotes the status to SUCCESS unless it is FAILED
or CANCELLED, and appends a SUCCESS node result with the summary. -/
def finalize_node (_reg : Registry) (st : WorkflowState) : WorkflowState :=
  let st1 := { st with
    status :=
      if st.status ≠ TaskStatus.FAILED ∧ st.status ≠ TaskStatus.CANCELLED
      then TaskStatus.SUCCESS else st.status }
  st1.add_node_result
    { node_name := "finalize", node_type := .FINALIZE, status := .SUCCESS,
      output := { total_vulnerabilities := some st1.vulnerabilities.length } }

/-! ### Engine (`safeflow/orchestration/engine.py`)

`OrchestrationEngine` stores, per run, the mutable `WorkflowState` and a
list of checkpoints.  Crucially, `_save_checkpoint` stores the state
*object itself* in the checkpoint dictionary (`"state": state`) — no
copy is made, and the node functions mutate that same object in place —
so every checkpoint of a run aliases the run's single live state.  The
embedding makes the aliasing explicit: a checkpoint record holds no
state of its own, and dereferencing it (`_load_checkpoint`,
`resume_workflow`) yields the run's current state. -/

/-- A node function as the engine calls it (the registry stands for the
process-global registry the Python nodes fetch). -/
def NodeFn := Registry → WorkflowState → WorkflowState

/-- The node sequence `_execute_simple_mode` chooses for each workflow
type (the final `else` branch covers `CUSTOM`). -/
def nodeSequence : WorkflowType → List NodeFn
  | .CODE_COMMIT =>
      [initialize_node, single_scan_node, result_collection_node, finalize_node]
  | .DEPENDENCY_UPDATE =>
      [initialize_node, single_scan_node, validation_node, finalize_node]
  | .EMERGENCY_VULN =>
      [initialize_node, parallel_scan_node, result_collection_node,
       validation_node, finalize_node]
  | .RELEASE_REGRESSION =>
      [initialize_node, parallel_scan_node, result_collection_node,
       validation_node, human_review_node, finalize_node]
  | .CUSTOM =>
      [initialize_node, single_scan_node, result_collection_node, finalize_node]

/-- Modelled from the spec: `safeflow/orchestration/config.py` is absent
from `src/` (only its importers are present).  Per spec §4.7 the engine
writes a checkpoint after each node when checkpointing is enabled, and
keeps at most `max_checkpoints` (default 20) recent snapshots. -/
structure WorkflowConfig where
  checkpoint_enabled : Bool := true
  checkpoint_auto_save : Bool := true
  max_checkpoints : Nat := 20

/-- A stored checkpoint record.  The Python dictionary also holds
`"state": state`, a reference to the run's live state object; the
embedding represents that reference implicitly (dereference =
`EngineRun.state`, see `checkpointStateView`). -/
structure Checkpoint where
  checkpoint_id : Nat
  node_name : Option String
deriving DecidableEq, Repr

/-- One engine entry: the run's live state and its checkpoint list
(`next_cp` models the freshness of the UUIDs used as checkpoint ids). -/
structure EngineRun where
  state : WorkflowState
  checkpoints : List Checkpoint := []
  next_cp : Nat := 0

/-- `OrchestrationEngine._save_checkpoint`: append a checkpoint record
(aliasing the live state), prune to the most recent `max_checkpoints`,
and stamp the checkpoint id on the state. -/
def saveCheckpoint (cfg : WorkflowConfig) (e : EngineRun) : EngineRun :=
  let cid := e.next_cp
  let cps := e.checkpoints ++ [{ checkpoint_id := cid, node_name := e.state.current_node }]
  let cps := if cps.length > cfg.max_checkpoints
             then cps.drop (cps.length - cfg.max_checkpoints) else cps
  { state := { e.state with checkpoint_id := some cid },
    checkpoints := cps,
    next_cp := cid + 1 }

/-- `OrchestrationEngine._load_checkpoint`: if the id exists for the run,
return the state stored in the checkpoint — which is the run's live
state object (the dictionary holds a reference, not a copy). -/
def checkpointStateView (e : EngineRun) (cid : Nat) : Option WorkflowState :=
  if e.checkpoints.any (fun cp => cp.checkpoint_id = cid)
  then some e.state else none

/-- One loop iteration of `_execute_simple_mode` up to (but not
including) the break checks: apply the node, save a checkpoint when
enabled, and let an externally-injected `pause_workflow` write PAUSED
when its turn has come and the state is not yet terminal. -/
def engineStep (reg : Registry) (cfg : WorkflowConfig) (pauseAfter : Option Nat)
    (f : NodeFn) (i : Nat) (e : EngineRun) : EngineRun :=
  let e1 : EngineRun := { e with state := f reg e.state }
  let e2 := if cfg.checkpoint_enabled ∧ cfg.checkpoint_auto_save
            then saveCheckpoint cfg e1 else e1
  if pauseAfter = some i ∧ ¬ e2.state.is_completed
  then { e2 with state := { e2.state with status := TaskStatus.PAUSED } }
  else e2

/-- The node-walking loop of `_execute_simple_mode`, with an optional
externally-injected pause: `pauseAfter = some i` models a
`pause_workflow` call whose PAUSED write lands at the node boundary
after the `i`-th node (the only points at which the loop observes the
status; `pause_workflow` refuses when the state is already terminal).
After each node the engine saves a checkpoint (when enabled), then
breaks if the state is paused, then breaks if it is FAILED.
Returns the engine entry and whether every node of the sequence ran. -/
def engineWalk (reg : Registry) (cfg : WorkflowConfig) (pauseAfter : Option Nat) :
    List NodeFn → Nat → EngineRun → EngineRun × Bool
  | [], _, e => (e, true)
  | f :: rest, i, e =>
      let e3 := engineStep reg cfg pauseAfter f i e
      if e3.state.is_paused then (e3, rest.isEmpty)
      else if e3.state.status = .FAILED then (e3, rest.isEmpty)
      else engineWalk reg cfg pauseAfter rest (i + 1) e3

/-- `OrchestrationEngine._execute_simple_mode` (the execution path taken
by `execute_workflow`): walk the node sequence of the run's workflow
type. -/
def execute_workflow (reg : Registry) (cfg : WorkflowConfig)
    (pauseAfter : Option Nat) (e : EngineRun) : EngineRun × Bool :=
  engineWalk reg cfg pauseAfter (nodeSequence e.state.context.workflow_type) 0 e

/-- `OrchestrationEngine.pause_workflow`: no-op on a completed run,
otherwise set PAUSED. -/
def pause_workflow (e : EngineRun) : EngineRun :=
  if e.state.is_completed then e
  else { e with state := { e.state with status := TaskStatus.PAUSED } }

/-- `OrchestrationEngine.resume_workflow`: set RUNNING and execute the
walk again (the walk always restarts at the first node of the
sequence).  When a checkpoint id is supplied and found, the source
re-binds its local variable to `checkpoint["state"]`, which is the very
object already stored as the run's state, so the state it resumes from
is identical either way; the embedding therefore takes no checkpoint
argument. -/
def resume_workflow (reg : Registry) (cfg : WorkflowConfig)
    (e : EngineRun) : EngineRun × Bool :=
  execute_workflow reg cfg none
    { e with state := { e.state with status := TaskStatus.RUNNING } }

/-- `OrchestrationEngine.create_workflow`: a fresh PENDING state. -/
def create_workflow (wt : WorkflowType) (target : ScanTarget)
    (tool_ids : List String) : EngineRun :=
  { state := {
      context := { workflow_id := "wf-1", workflow_type := wt },
      target := target,
      status := .PENDING,
      tool_ids := tool_ids } }

/-! ### Serial cost model for `scan_with_multiple_tools` (claim C9)

`ToolService.scan_with_multiple_tools` invokes `scan_with_tool` in a
plain sequential `for` loop (`tool_service.py` lines 199–202), and
`parallel_scan_node` calls it directly (`nodes.py` line 263, whose
inline comment itself notes that execution is currently sequential).
Consequently the elapsed time of the node is the *sum* of the per-tool
execution times, regardless of any configured parallelism cap. -/

/-- Elapsed milliseconds of the sequential loop inside
`scan_with_multiple_tools`: the sum of the registered adapters'
execution durations over the tool ids it iterates (an unknown tool
contributes no adapter execution time). -/
def scanMultipleToolsDuration (reg : Registry) (tool_ids : List String) : Nat :=
  let ids := if tool_ids.isEmpty then reg.get_tool_ids else tool_ids
  (ids.map (fun tid =>
    match reg.get_adapter tid with
    | some a => a.duration_ms
    | none => 0)).sum

/-! ### Task scheduler (`safeflow/orchestration/scheduler.py`) -/

namespace Scheduler

/-- `TaskPriority` enum. -/
inductive TaskPriority where
  | LOW
  | NORMAL
  | HIGH
  | CRITICAL
deriving DecidableEq, Repr

/-- `TaskPriority.value`. -/
def TaskPriority.value : TaskPriority → Nat
  | .LOW => 1
  | .NORMAL => 2
  | .HIGH => 3
  | .CRITICAL => 4

/-- `Task` from `scheduler.py`.  `func k` is the outcome of calling the
task's function on its `k`-th attempt (`0`-based): `.ok` a result value,
`.error` an exception message (a timeout is one kind of exception and is
subsumed by the `.error` case).  Result payloads are modelled as `Nat`. -/
structure Task where
  task_id : String
  task_name : String
  func : Nat → Except String Nat
  priority : TaskPriority := .NORMAL
  max_retries : Nat := 3

instance : Inhabited Task :=
  ⟨{ task_id := "", task_name := "", func := fun _ => .error "" }⟩

/-- `TaskResult` from `scheduler.py` (timestamp fields omitted). -/
structure TaskResult where
  task_id : String
  task_name : String
  status : TaskStatus
  result : Option Nat := none
  error : Option String := none
  retry_count : Nat := 0
deriving DecidableEq, Repr

/-- The retry loop of `_execute_single_task`: `k` is the current value
of the Python `retry_count` variable, `fuel` the number of attempts
still allowed (`max_retries + 1 - k`), `lastError` the last exception
message. -/
def executeSingleTaskGo (t : Task) (lastError : Option String) :
    Nat → Nat → TaskResult
  | _, 0 =>
      { task_id := t.task_id, task_name := t.task_name,
        status := .FAILED, error := lastError,
        retry_count := t.max_retries }
  | k, fuel + 1 =>
      match t.func k with
      | .ok v =>
          { task_id := t.task_id, task_name := t.task_name,
            status := .SUCCESS, result := some v, retry_count := k }
      | .error e => executeSingleTaskGo t (some e) (k + 1) fuel

/-- `TaskScheduler._execute_single_task`: up to `max_retries + 1`
attempts; a success returns SUCCESS with the number of prior failures in
`retry_count`; exhaustion returns FAILED carrying the last error and
`retry_count = max_retries`. -/
def executeSingleTask (t : Task) : TaskResult :=
  executeSingleTaskGo t none 0 (t.max_retries + 1)

/-- A SKIPPED placeholder result for a task not started because an
earlier task failed under `stop_on_failure`. -/
def skippedResult (t : Task) : TaskResult :=
  { task_id := t.task_id, task_name := t.task_name,
    status := .SKIPPED, error := some "前序任务失败" }

/-- `TaskScheduler.schedule_sequential`: run the tasks one by one *in
the order of the given list* (the source performs no sorting here); when
`stop_on_failure` is set and a task's result is FAILED, every remaining
task is recorded as SKIPPED and the loop stops. -/
def schedule_sequential (tasks : List Task) (stop_on_failure : Bool) :
    List TaskResult :=
  match tasks with
  | [] => []
  | t :: rest =>
      let r := executeSingleTask t
      if stop_on_failure ∧ r.status = .FAILED then
        r :: rest.map skippedResult
      else
        r :: schedule_sequential rest stop_on_failure

/-- The stable descending-priority order produced by
`sorted(tasks, key=lambda t: t.priority.value, reverse=True)`: tasks of
equal priority keep their input order. -/
def sortByPriorityDesc (tasks : List Task) : List Task :=
  ([TaskPriority.CRITICAL, .HIGH, .NORMAL, .LOW]).flatMap
    (fun p => tasks.filter (fun t => t.priority = p))

/-- `TaskScheduler.schedule_parallel` with `fail_fast = False`:
sort by descending priority, then `_execute_parallel_all` runs every
task and `asyncio.gather` returns the results positionally — one result
per coroutine, in the sorted task order, whatever order the tasks happen
to finish in (exceptions cannot escape `_execute_single_task`, which
converts them into FAILED results). -/
def schedule_parallel (tasks : List Task) : List TaskResult :=
  (sortByPriorityDesc tasks).map executeSingleTask

/-- The positional result-slot model of `asyncio.gather`: starting from
empty slots, each completion event (an index into the sorted task list)
writes its task's result into its own slot; `σ` is the order in which
the tasks finish. -/
def gatherSlots (ts : List Task) (σ : List Nat) : List (Option TaskResult) :=
  σ.foldl
    (fun slots i => slots.set i (some (executeSingleTask (ts.getD i default))))
    (List.replicate ts.length none)

end Scheduler

/-! ### Concrete fixtures for counterexamples and witnesses -/

/-- A finding shaped like a semgrep `ERROR` finding after
`model_dump()`: severity `{level HIGH, score 8.5}` (and no
`confidence_score` key, which the `Severity` model does not have),
confidence `{score 90}` per `_severity_to_confidence("ERROR")`. -/
def vulnSem : Vuln :=
  { vulnerability_id := "wf-1_semgrep_0",
    severity := some { level := some "HIGH",
                       score := some ⟨17, 2, by decide, by decide⟩ },
    confidence := some { score := some 90 } }

/-- A second stub finding (an SCA-style record). -/
def vulnSca : Vuln :=
  { vulnerability_id := "wf-1_syft_0",
    severity := some { level := some "MEDIUM", score := some 5 },
    confidence := some { score := some 75 } }

/-- A stub SAST adapter returning one finding in 200 ms. -/
def stubSast : AdapterModel :=
  { tool_id := "stub-sast", tool_name := "Stub SAST",
    run_outcome := .ok [vulnSem], duration_ms := 200 }

/-- A stub SCA adapter returning one finding in 200 ms. -/
def stubSca : AdapterModel :=
  { tool_id := "stub-sca", tool_name := "Stub SCA",
    run_outcome := .ok [vulnSca], duration_ms := 200 }

/-- An adapter whose `run` raises. -/
def failingAdapter : AdapterModel :=
  { tool_id := "bad-tool", tool_name := "Bad Tool",
    run_outcome := .error "boom" }

/-- Registry holding the single stub SAST adapter. -/
def reg1 : Registry := [stubSast]

/-- Registry holding both stub adapters. -/
def reg2 : Registry := [stubSast, stubSca]

/-- Registry holding only a failing adapter. -/
def regFail : Registry := [failingAdapter]

/-- The empty registry. -/
def regEmpty : Registry := []

/-- Default engine configuration (checkpointing on, cap 20). -/
def cfg0 : WorkflowConfig := {}

/-- A clean CODE_COMMIT run over the stub SAST tool. -/
def runCC : EngineRun := create_workflow .CODE_COMMIT ⟨"/p"⟩ ["stub-sast"]

/-- A clean RELEASE_REGRESSION run over both stub tools. -/
def runRR : EngineRun := create_workflow .RELEASE_REGRESSION ⟨"/p"⟩ []

/-- A running state holding only the failing tool. -/
def stBad : WorkflowState :=
  { context := { workflow_type := .CODE_COMMIT },
    target := ⟨"/p"⟩, tool_ids := ["bad-tool"], status := .RUNNING }

/-- A running state whose accumulated findings are the single
high-confidence semgrep-style finding. -/
def stVal : WorkflowState :=
  { context := { workflow_type := .DEPENDENCY_UPDATE },
    target := ⟨"/p"⟩, status := .RUNNING, vulnerabilities := [vulnSem] }

/-- A low-priority task that succeeds immediately. -/
def tLow : Scheduler.Task :=
  { task_id := "low-task", task_name := "Low",
    func := fun _ => .ok 1, priority := .LOW, max_retries := 0 }

/-- A high-priority task that succeeds immediately. -/
def tHigh : Scheduler.Task :=
  { task_id := "high-task", task_name := "High",
    func := fun _ => .ok 2, priority := .HIGH, max_retries := 0 }


/-- A node function only appends to the node-result log. -/
def AppendsLog (f : NodeFn) : Prop :=
  ∀ (reg : Registry) (st : WorkflowState),
    ∃ rs, (f reg st).node_results = st.node_results ++ rs

/-- The error/status discipline maintained by the node walk: a FAILED
status always comes with a recorded error, an error is only recorded
by a node that also fails the run, and the walk itself never writes
CANCELLED. -/
def InvP (s : TaskStatus) (es : List String) : Prop :=
  (s = .FAILED → es ≠ []) ∧ (es ≠ [] → s = .FAILED) ∧ s ≠ .CANCELLED

/-- `InvP` on a state's own status and error list. -/
def Inv (st : WorkflowState) : Prop := InvP st.status st.errors

/-- A node function preserves `Inv` from any non-FAILED state (the walk
only applies nodes to non-FAILED states). -/
def PreservesInv (f : NodeFn) : Prop :=
  ∀ (reg : Registry) (st : WorkflowState),
    Inv st → st.status ≠ .FAILED → Inv (f reg st)

/-- A node function that leaves the selected tool ids untouched. -/
def PreservesToolIds (f : NodeFn) : Prop :=
  ∀ (reg : Registry) (st : WorkflowState), (f reg st).tool_ids = st.tool_ids

/-- The components of a `WorkflowState` other than the status that node
behaviour can depend on — everything except the bookkeeping fields
`node_results`, `current_node`, `checkpoint_id` and `retry_count`,
which no node of the built-in sequences reads. -/
def WorkflowState.core (st : WorkflowState) :
    WorkflowContext × ScanTarget × List String × List Vuln × List String ×
      Bool × Option Nat :=
  (st.context, st.target, st.tool_ids, st.vulnerabilities, st.errors,
   st.requires_human_review, st.human_review_data)

/-- Status plus core: the full observable part of a state. -/
def WorkflowState.obs (st : WorkflowState) := (st.status, st.core)

/-- A node function whose observable output depends only on the
observable part of its input. -/
def ObsCongr (f : NodeFn) : Prop :=
  ∀ (reg : Registry) (st st' : WorkflowState),
    st.obs = st'.obs → (f reg st).obs = (f reg st').obs

/-! ### Helper lemmas about the engine embedding -/

/-- Unfolding `add_node_result` into a single record update. -/
@[simp] theorem add_node_result_eq (st : WorkflowState) (r : NodeResult) :
    st.add_node_result r
      = { st with
          node_results := st.node_results ++ [r],
          current_node := some r.node_name,
          errors :=
            if r.status = .FAILED then
              st.errors ++
                ["节点 " ++ r.node_name ++ " 失败: " ++ r.error.getD "None"]
            else st.errors } := by
  unfold WorkflowState.add_node_result
  split <;> simp_all

/-- `_save_checkpoint` touches only the `checkpoint_id` field of the
run's state. -/
@[simp] theorem saveCheckpoint_state (cfg : WorkflowConfig) (e : EngineRun) :
    (saveCheckpoint cfg e).state
      = { e.state with checkpoint_id := some e.next_cp } := rfl

/-- The response of `scan_with_tool` carries the requested tool id. -/
@[simp] theorem scan_with_tool_tool_id (reg : Registry) (tid : String) :
    (scan_with_tool reg tid).tool_id = tid := by
  unfold scan_with_tool
  rcases reg.get_adapter tid with _ | a
  · rfl
  · rcases h : a.run_outcome with v | e <;> simp [h]

/-- `single_scan_node` does not change the run status. -/
@[simp] theorem single_scan_node_status (reg : Registry) (st : WorkflowState) :
    (single_scan_node reg st).status = st.status := by
  simp [single_scan_node]

/-- `parallel_scan_node` does not change the run status. -/
@[simp] theorem parallel_scan_node_status (reg : Registry) (st : WorkflowState) :
    (parallel_scan_node reg st).status = st.status := by
  simp [parallel_scan_node]

/-- `result_collection_node` does not change the run status. -/
@[simp] theorem result_collection_node_status (reg : Registry) (st : WorkflowState) :
    (result_collection_node reg st).status = st.status := by
  simp [result_collection_node]

/-- `validation_node` does not change the run status. -/
@[simp] theorem validation_node_status (reg : Registry) (st : WorkflowState) :
    (validation_node reg st).status = st.status := by
  simp [validation_node]

/-- `human_review_node` always pauses the run. -/
@[simp] theorem human_review_node_status (reg : Registry) (st : WorkflowState) :
    (human_review_node reg st).status = TaskStatus.PAUSED := by
  simp [human_review_node]

/-- Every node of every built-in sequence only appends to the log. -/
theorem appendsLog_nodeSequence (wt : WorkflowType) :
    ∀ f ∈ nodeSequence wt, AppendsLog f := by
  have hinit : AppendsLog initialize_node := by
    intro reg st
    unfold initialize_node
    split <;> exact ⟨_, by simp [WorkflowState.add_error] <;> try rfl⟩
  have hsingle : AppendsLog single_scan_node := by
    intro reg st; exact ⟨_, by simp [single_scan_node] <;> try rfl⟩
  have hpar : AppendsLog parallel_scan_node := by
    intro reg st; exact ⟨_, by simp [parallel_scan_node] <;> try rfl⟩
  have hcol : AppendsLog result_collection_node := by
    intro reg st; exact ⟨_, by simp [result_collection_node] <;> try rfl⟩
  have hval : AppendsLog validation_node := by
    intro reg st; exact ⟨_, by simp [validation_node] <;> try rfl⟩
  have hhr : AppendsLog human_review_node := by
    intro reg st; exact ⟨_, by simp [human_review_node] <;> try rfl⟩
  have hfin : AppendsLog finalize_node := by
    intro reg st; exact ⟨_, by simp [finalize_node] <;> try rfl⟩
  intro f hf
  cases wt <;> simp only [nodeSequence, List.mem_cons, List.not_mem_nil,
    or_false] at hf <;>
    rcases hf with rfl | rfl | rfl | rfl | rfl | rfl <;>
    first
      | exact hinit
      | exact hsingle
      | exact hpar
      | exact hcol
      | exact hval
      | exact hhr
      | exact hfin

/-- `engineStep` leaves the node-result log exactly as the node left
it (checkpoint saving and pause injection do not touch it). -/
theorem engineStep_node_results (reg : Registry) (cfg : WorkflowConfig)
    (pa : Option Nat) (f : NodeFn) (i : Nat) (e : EngineRun) :
    (engineStep reg cfg pa f i e).state.node_results
      = (f reg e.state).node_results := by
  unfold engineStep
  dsimp only
  split <;> split <;> rfl

/-- The walk only appends to the node-result log, for any pause
injection. -/
theorem engineWalk_log (reg : Registry) (cfg : WorkflowConfig)
    (pa : Option Nat) :
    ∀ (fs : List NodeFn) (i : Nat) (e : EngineRun),
      (∀ f ∈ fs, AppendsLog f) →
      ∃ t, (engineWalk reg cfg pa fs i e).1.state.node_results
        = e.state.node_results ++ t := by
  intro fs
  induction fs with
  | nil => intro i e _; exact ⟨[], by simp [engineWalk]⟩
  | cons f fs ih =>
      intro i e h
      obtain ⟨rs, hrs⟩ := h f (List.mem_cons_self f fs) reg e.state
      have h3 : (engineStep reg cfg pa f i e).state.node_results
          = e.state.node_results ++ rs := by
        rw [engineStep_node_results, hrs]
      rw [engineWalk]
      split
      · exact ⟨rs, h3⟩
      · split
        · exact ⟨rs, h3⟩
        · obtain ⟨t, ht⟩ := ih (i + 1) (engineStep reg cfg pa f i e)
            (fun g hg => h g (List.mem_cons_of_mem f hg))
          exact ⟨rs ++ t, by rw [ht, h3, List.append_assoc]⟩

/-- Every node of every built-in sequence preserves the error/status
discipline. -/
theorem preservesInv_nodeSequence (wt : WorkflowType) :
    ∀ f ∈ nodeSequence wt, PreservesInv f := by
  have herr : ∀ st : WorkflowState, Inv st → st.status ≠ .FAILED →
      st.errors = [] := by
    intro st hInv hnf
    by_contra h
    exact hnf (hInv.2.1 h)
  have hinit : PreservesInv initialize_node := by
    intro reg st hInv hnf
    have he := herr st hInv hnf
    unfold initialize_node
    split <;> simp_all [Inv, InvP, WorkflowState.add_error]
  have hsingle : PreservesInv single_scan_node := by
    intro reg st hInv hnf
    have he := herr st hInv hnf
    simp_all [Inv, InvP, single_scan_node, singleScanResult]
  have hpar : PreservesInv parallel_scan_node := by
    intro reg st hInv hnf
    have he := herr st hInv hnf
    simp_all [Inv, InvP, parallel_scan_node, parallelScanResult]
  have hcol : PreservesInv result_collection_node := by
    intro reg st hInv hnf
    have he := herr st hInv hnf
    simp_all [Inv, InvP, result_collection_node]
  have hval : PreservesInv validation_node := by
    intro reg st hInv hnf
    have he := herr st hInv hnf
    simp_all [Inv, InvP, validation_node]
  have hhr : PreservesInv human_review_node := by
    intro reg st hInv hnf
    have he := herr st hInv hnf
    simp_all [Inv, InvP, human_review_node]
  have hfin : PreservesInv finalize_node := by
    intro reg st hInv hnf
    have he := herr st hInv hnf
    have hnc := hInv.2.2
    simp_all [Inv, InvP, finalize_node]
  intro f hf
  cases wt <;> simp only [nodeSequence, List.mem_cons, List.not_mem_nil,
    or_false] at hf <;>
    rcases hf with rfl | rfl | rfl | rfl | rfl | rfl <;>
    first
      | exact hinit
      | exact hsingle
      | exact hpar
      | exact hcol
      | exact hval
      | exact hhr
      | exact hfin

/-- `engineStep` leaves the error list exactly as the node left it. -/
theorem engineStep_errors (reg : Registry) (cfg : WorkflowConfig)
    (pa : Option Nat) (f : NodeFn) (i : Nat) (e : EngineRun) :
    (engineStep reg cfg pa f i e).state.errors = (f reg e.state).errors := by
  unfold engineStep
  dsimp only
  split <;> split <;> rfl

/-- After `engineStep`, the status is the node's status, or PAUSED when
the injected pause hit a not-yet-terminal state. -/
theorem engineStep_status (reg : Registry) (cfg : WorkflowConfig)
    (pa : Option Nat) (f : NodeFn) (i : Nat) (e : EngineRun) :
    (engineStep reg cfg pa f i e).state.status = (f reg e.state).status ∨
    ((engineStep reg cfg pa f i e).state.status = TaskStatus.PAUSED ∧
      (f reg e.state).is_completed = false) := by
  unfold engineStep
  dsimp only
  split <;> split <;>
    first
      | (left; rfl)
      | (rename_i hc; right; exact ⟨rfl, by simpa using hc.2⟩)

/-- Without pause injection, `engineStep` keeps the node's status. -/
theorem engineStep_none_status (reg : Registry) (cfg : WorkflowConfig)
    (f : NodeFn) (i : Nat) (e : EngineRun) :
    (engineStep reg cfg none f i e).state.status = (f reg e.state).status := by
  unfold engineStep
  dsimp only
  rw [if_neg (by simp)]
  split <;> rfl

/-- `engineStep` preserves the error/status discipline. -/
theorem engineStep_inv (reg : Registry) (cfg : WorkflowConfig)
    (pa : Option Nat) (f : NodeFn) (i : Nat) (e : EngineRun)
    (hf : PreservesInv f) (hInv : Inv e.state)
    (hnf : e.state.status ≠ .FAILED) :
    Inv (engineStep reg cfg pa f i e).state := by
  have h1 : Inv (f reg e.state) := hf reg e.state hInv hnf
  have herr := engineStep_errors reg cfg pa f i e
  rcases engineStep_status reg cfg pa f i e with hs | ⟨hs, hcomp⟩
  · show InvP _ _
    rw [hs, herr]
    exact h1
  · show InvP _ _
    rw [hs, herr]
    refine ⟨fun h => absurd h (by simp), fun h => ?_, by simp⟩
    have := h1.2.1 h
    rw [WorkflowState.is_completed, this] at hcomp
    simp at hcomp

/-- The walk preserves the error/status discipline. -/
theorem engineWalk_inv (reg : Registry) (cfg : WorkflowConfig)
    (pa : Option Nat) :
    ∀ (fs : List NodeFn) (i : Nat) (e : EngineRun),
      (∀ f ∈ fs, PreservesInv f) → Inv e.state →
      e.state.status ≠ .FAILED →
      Inv (engineWalk reg cfg pa fs i e).1.state := by
  intro fs
  induction fs with
  | nil => intro i e _ hInv _; simpa [engineWalk] using hInv
  | cons f fs ih =>
      intro i e h hInv hnf
      have h3 := engineStep_inv reg cfg pa f i e
        (h f (List.mem_cons_self f fs)) hInv hnf
      rw [engineWalk]
      split
      · exact h3
      · split
        · exact h3
        · rename_i hnf3
          exact ih (i + 1) _ (fun g hg => h g (List.mem_cons_of_mem f hg))
            h3 hnf3

/-- On a non-FAILED, non-CANCELLED state `finalize_node` promotes the
run to SUCCESS. -/
theorem finalize_node_status (reg : Registry) (st : WorkflowState)
    (h1 : st.status ≠ .FAILED) (h2 : st.status ≠ .CANCELLED) :
    (finalize_node reg st).status = .SUCCESS := by
  simp [finalize_node, h1, h2]

/-- If the walk (without external pause) runs every node and the
sequence ends with `finalize_node`, the final status is SUCCESS. -/
theorem engineWalk_completed_success (reg : Registry) (cfg : WorkflowConfig) :
    ∀ (fs : List NodeFn) (i : Nat) (e : EngineRun),
      (∀ f ∈ fs, PreservesInv f) → Inv e.state →
      e.state.status ≠ .FAILED →
      fs.getLast? = some finalize_node →
      (engineWalk reg cfg none fs i e).2 = true →
      (engineWalk reg cfg none fs i e).1.state.status = .SUCCESS := by
  intro fs
  induction fs with
  | nil => intro i e _ _ _ hlast _; cases hlast
  | cons f fs ih =>
      intro i e h hInv hnf hlast hflag
      cases fs with
      | nil =>
          have hfin : f = finalize_node := by
            simpa using hlast
          subst hfin
          have hst : (engineStep reg cfg none finalize_node i e).state.status
              = .SUCCESS := by
            rw [engineStep_none_status]
            exact finalize_node_status reg e.state hnf hInv.2.2
          rw [engineWalk]
          rw [if_neg (by simp [WorkflowState.is_paused, hst])]
          rw [if_neg (by simp [hst])]
          simpa [engineWalk] using hst
      | cons f' fs' =>
          have h3 := engineStep_inv reg cfg none f i e
            (h f (List.mem_cons_self f _)) hInv hnf
          rw [engineWalk] at hflag ⊢
          by_cases hp : (engineStep reg cfg none f i e).state.is_paused = true
          · rw [if_pos hp] at hflag
            simp at hflag
          · rw [if_neg hp] at hflag ⊢
            by_cases hf3 : (engineStep reg cfg none f i e).state.status = .FAILED
            · rw [if_pos hf3] at hflag
              simp at hflag
            · rw [if_neg hf3] at hflag ⊢
              exact ih (i + 1) _
                (fun g hg => h g (List.mem_cons_of_mem f hg)) h3 hf3
                (by simpa using hlast) hflag

/-- Every built-in sequence ends with `finalize_node`. -/
theorem nodeSequence_getLast (wt : WorkflowType) :
    (nodeSequence wt).getLast? = some finalize_node := by
  cases wt <;> rfl

/-- Every built-in sequence starts with `initialize_node`. -/
theorem nodeSequence_head (wt : WorkflowType) :
    nodeSequence wt = initialize_node :: (nodeSequence wt).tail := by
  cases wt <;> rfl

/-- All nodes after `initialize` leave the selected tool ids
untouched. -/
theorem preservesToolIds_tail (wt : WorkflowType) :
    ∀ f ∈ (nodeSequence wt).tail, PreservesToolIds f := by
  have hsingle : PreservesToolIds single_scan_node := by
    intro reg st; simp [single_scan_node]
  have hpar : PreservesToolIds parallel_scan_node := by
    intro reg st; simp [parallel_scan_node]
  have hcol : PreservesToolIds result_collection_node := by
    intro reg st; simp [result_collection_node]
  have hval : PreservesToolIds validation_node := by
    intro reg st; simp [validation_node]
  have hhr : PreservesToolIds human_review_node := by
    intro reg st; simp [human_review_node]
  have hfin : PreservesToolIds finalize_node := by
    intro reg st; simp [finalize_node]
  intro f hf
  cases wt <;> simp only [nodeSequence, List.tail_cons, List.mem_cons,
    List.not_mem_nil, or_false] at hf <;>
    rcases hf with rfl | rfl | rfl | rfl | rfl <;>
    first
      | exact hsingle
      | exact hpar
      | exact hcol
      | exact hval
      | exact hhr
      | exact hfin

/-- `engineStep` leaves the tool ids exactly as the node left them. -/
theorem engineStep_tool_ids (reg : Registry) (cfg : WorkflowConfig)
    (pa : Option Nat) (f : NodeFn) (i : Nat) (e : EngineRun) :
    (engineStep reg cfg pa f i e).state.tool_ids
      = (f reg e.state).tool_ids := by
  unfold engineStep
  dsimp only
  split <;> split <;> rfl

/-- The walk leaves the tool ids untouched when all its nodes do. -/
theorem engineWalk_tool_ids (reg : Registry) (cfg : WorkflowConfig)
    (pa : Option Nat) :
    ∀ (fs : List NodeFn) (i : Nat) (e : EngineRun),
      (∀ f ∈ fs, PreservesToolIds f) →
      (engineWalk reg cfg pa fs i e).1.state.tool_ids
        = e.state.tool_ids := by
  intro fs
  induction fs with
  | nil => intro i e _; simp [engineWalk]
  | cons f fs ih =>
      intro i e h
      have h3 : (engineStep reg cfg pa f i e).state.tool_ids
          = e.state.tool_ids := by
        rw [engineStep_tool_ids, h f (List.mem_cons_self f fs)]
      rw [engineWalk]
      split
      · exact h3
      · split
        · exact h3
        · rw [ih (i + 1) _ (fun g hg => h g (List.mem_cons_of_mem f hg)), h3]

/-- `engineStep` leaves `requires_human_review` exactly as the node
left it. -/
theorem engineStep_rhr (reg : Registry) (cfg : WorkflowConfig)
    (pa : Option Nat) (f : NodeFn) (i : Nat) (e : EngineRun) :
    (engineStep reg cfg pa f i e).state.requires_human_review
      = (f reg e.state).requires_human_review := by
  unfold engineStep
  dsimp only
  split <;> split <;> rfl

/-- `initialize_node` appends one INITIALIZE-typed result and does not
set `requires_human_review`. -/
theorem initialize_node_shape (reg : Registry) (st : WorkflowState) :
    (∃ r, (initialize_node reg st).node_results = st.node_results ++ [r] ∧
      r.node_type = .INITIALIZE) ∧
    (initialize_node reg st).requires_human_review
      = st.requires_human_review := by
  unfold initialize_node
  split
  · exact ⟨⟨_, by simp [WorkflowState.add_error]; try rfl, rfl⟩, by
      simp [WorkflowState.add_error]⟩
  · exact ⟨⟨_, by simp; try rfl, rfl⟩, by simp⟩

/-- `parallel_scan_node` appends one PARALLEL_SCAN-typed result and
does not set `requires_human_review`. -/
theorem parallel_scan_node_shape (reg : Registry) (st : WorkflowState) :
    (∃ r, (parallel_scan_node reg st).node_results = st.node_results ++ [r] ∧
      r.node_type = .PARALLEL_SCAN) ∧
    (parallel_scan_node reg st).requires_human_review
      = st.requires_human_review := by
  exact ⟨⟨_, by simp [parallel_scan_node]; try rfl, rfl⟩,
    by simp [parallel_scan_node]⟩

/-- `result_collection_node` appends one COLLECT-typed result and does
not set `requires_human_review`. -/
theorem result_collection_node_shape (reg : Registry) (st : WorkflowState) :
    (∃ r, (result_collection_node reg st).node_results
        = st.node_results ++ [r] ∧ r.node_type = .COLLECT) ∧
    (result_collection_node reg st).requires_human_review
      = st.requires_human_review := by
  exact ⟨⟨_, by simp [result_collection_node]; try rfl, rfl⟩,
    by simp [result_collection_node]⟩

/-- `validation_node` appends one VALIDATE-typed result and does not
set `requires_human_review`. -/
theorem validation_node_shape (reg : Registry) (st : WorkflowState) :
    (∃ r, (validation_node reg st).node_results = st.node_results ++ [r] ∧
      r.node_type = .VALIDATE) ∧
    (validation_node reg st).requires_human_review
      = st.requires_human_review := by
  exact ⟨⟨_, by simp [validation_node]; try rfl, rfl⟩,
    by simp [validation_node]⟩

/-- `human_review_node` appends one HUMAN_REVIEW-typed result with
status PAUSED and sets `requires_human_review`. -/
theorem human_review_node_shape (reg : Registry) (st : WorkflowState) :
    (∃ r, (human_review_node reg st).node_results = st.node_results ++ [r] ∧
      r.node_type = .HUMAN_REVIEW ∧ r.status = .PAUSED) ∧
    (human_review_node reg st).requires_human_review = true := by
  exact ⟨⟨_, by simp [human_review_node]; try rfl, rfl, rfl⟩,
    by simp [human_review_node]⟩

/-- Every node of every built-in sequence is observationally
congruent. -/
theorem obsCongr_nodeSequence (wt : WorkflowType) :
    ∀ f ∈ nodeSequence wt, ObsCongr f := by
  have unpack : ∀ st st' : WorkflowState, st.obs = st'.obs →
      st.status = st'.status ∧ st.context = st'.context ∧
      st.target = st'.target ∧ st.tool_ids = st'.tool_ids ∧
      st.vulnerabilities = st'.vulnerabilities ∧ st.errors = st'.errors ∧
      st.requires_human_review = st'.requires_human_review ∧
      st.human_review_data = st'.human_review_data := by
    intro st st' h
    simpa [WorkflowState.obs, WorkflowState.core, Prod.mk.injEq,
      and_assoc] using h
  have hinit : ObsCongr initialize_node := by
    intro reg st st' h
    obtain ⟨hs, hc, ht, hti, hv, he, hr, hh⟩ := unpack st st' h
    unfold initialize_node
    rw [ht]
    split <;>
      simp [WorkflowState.obs, WorkflowState.core, WorkflowState.add_error,
        hs, hc, ht, hti, hv, he, hr, hh]
  have hsingle : ObsCongr single_scan_node := by
    intro reg st st' h
    obtain ⟨hs, hc, ht, hti, hv, he, hr, hh⟩ := unpack st st' h
    unfold single_scan_node
    simp [WorkflowState.obs, WorkflowState.core, singleScanResult,
      hs, hc, ht, hti, hv, he, hr, hh]
  have hpar : ObsCongr parallel_scan_node := by
    intro reg st st' h
    obtain ⟨hs, hc, ht, hti, hv, he, hr, hh⟩ := unpack st st' h
    unfold parallel_scan_node
    simp [WorkflowState.obs, WorkflowState.core, parallelScanResult,
      hs, hc, ht, hti, hv, he, hr, hh]
  have hcol : ObsCongr result_collection_node := by
    intro reg st st' h
    obtain ⟨hs, hc, ht, hti, hv, he, hr, hh⟩ := unpack st st' h
    unfold result_collection_node
    simp [WorkflowState.obs, WorkflowState.core,
      hs, hc, ht, hti, hv, he, hr, hh]
  have hval : ObsCongr validation_node := by
    intro reg st st' h
    obtain ⟨hs, hc, ht, hti, hv, he, hr, hh⟩ := unpack st st' h
    unfold validation_node
    simp [WorkflowState.obs, WorkflowState.core,
      hs, hc, ht, hti, hv, he, hr, hh]
  have hhr : ObsCongr human_review_node := by
    intro reg st st' h
    obtain ⟨hs, hc, ht, hti, hv, he, hr, hh⟩ := unpack st st' h
    unfold human_review_node
    simp [WorkflowState.obs, WorkflowState.core,
      hs, hc, ht, hti, hv, he, hr, hh]
  have hfin : ObsCongr finalize_node := by
    intro reg st st' h
    obtain ⟨hs, hc, ht, hti, hv, he, hr, hh⟩ := unpack st st' h
    unfold finalize_node
    rw [hs]
    split <;>
      simp [WorkflowState.obs, WorkflowState.core,
        hs, hc, ht, hti, hv, he, hr, hh]
  intro f hf
  cases wt <;> simp only [nodeSequence, List.mem_cons, List.not_mem_nil,
    or_false] at hf <;>
    rcases hf with rfl | rfl | rfl | rfl | rfl | rfl <;>
    first
      | exact hinit
      | exact hsingle
      | exact hpar
      | exact hcol
      | exact hval
      | exact hhr
      | exact hfin

/-- `engineStep` leaves the core exactly as the node left it (both the
checkpoint save and the pause injection only touch `checkpoint_id` and
`status`). -/
theorem engineStep_core (reg : Registry) (cfg : WorkflowConfig)
    (pa : Option Nat) (f : NodeFn) (i : Nat) (e : EngineRun) :
    (engineStep reg cfg pa f i e).state.core = (f reg e.state).core := by
  unfold engineStep
  dsimp only
  split <;> split <;> rfl

/-- Without pause injection, `engineStep` is observably the node
application. -/
theorem engineStep_none_obs (reg : Registry) (cfg : WorkflowConfig)
    (f : NodeFn) (i : Nat) (e : EngineRun) :
    (engineStep reg cfg none f i e).state.obs = (f reg e.state).obs := by
  unfold WorkflowState.obs
  rw [engineStep_none_status, engineStep_core]

/-- When the injected pause lands on a not-yet-terminal node output,
`engineStep` sets PAUSED. -/
theorem engineStep_pause_taken_status (reg : Registry) (cfg : WorkflowConfig)
    (f : NodeFn) (i : Nat) (e : EngineRun)
    (h : (f reg e.state).is_completed = false) :
    (engineStep reg cfg (some i) f i e).state.status = .PAUSED := by
  unfold engineStep
  dsimp only
  rw [if_pos]
  refine ⟨rfl, ?_⟩
  split <;> simp [saveCheckpoint, WorkflowState.is_completed] at h ⊢ <;>
    simp [h]

/-- Two walks (without pause injection) over the same observationally
congruent nodes, from observationally equal engine states, end in
observationally equal states. -/
theorem engineWalk_obs_congr (reg : Registry) (cfg : WorkflowConfig) :
    ∀ (fs : List NodeFn) (i i' : Nat) (e e' : EngineRun),
      (∀ f ∈ fs, ObsCongr f) → e.state.obs = e'.state.obs →
      (engineWalk reg cfg none fs i e).1.state.obs
        = (engineWalk reg cfg none fs i' e').1.state.obs := by
  intro fs
  induction fs with
  | nil => intro i i' e e' _ h; simpa [engineWalk] using h
  | cons f fs ih =>
      intro i i' e e' hf h
      have h3 : (engineStep reg cfg none f i e).state.obs
          = (engineStep reg cfg none f i' e').state.obs := by
        rw [engineStep_none_obs, engineStep_none_obs]
        exact hf f (List.mem_cons_self f fs) reg e.state e'.state h
      have hst3 : (engineStep reg cfg none f i e).state.status
          = (engineStep reg cfg none f i' e').state.status :=
        congrArg Prod.fst h3
      rw [engineWalk, engineWalk]
      by_cases hp : (engineStep reg cfg none f i e).state.is_paused = true
      · have hp' : (engineStep reg cfg none f i' e').state.is_paused = true := by
          unfold WorkflowState.is_paused at hp ⊢
          rw [← hst3]
          exact hp
        rw [if_pos hp, if_pos hp']
        exact h3
      · have hp' : ¬ (engineStep reg cfg none f i' e').state.is_paused = true := by
          unfold WorkflowState.is_paused at hp ⊢
          rw [← hst3]
          exact hp
        rw [if_neg hp, if_neg hp']
        by_cases hfl : (engineStep reg cfg none f i e).state.status = .FAILED
        · have hfl' : (engineStep reg cfg none f i' e').state.status = .FAILED :=
            hst3 ▸ hfl
          rw [if_pos hfl, if_pos hfl']
          exact h3
        · have hfl' : ¬ (engineStep reg cfg none f i' e').state.status
              = .FAILED := fun hx => hfl (hst3.trans hx)
          rw [if_neg hfl, if_neg hfl']
          exact ih (i + 1) (i' + 1) _ _
            (fun g hg => hf g (List.mem_cons_of_mem f hg)) h3

/-- Re-running `initialize_node` on a state it already initialized is
observationally a no-op: the path check passes again, the status write
re-writes RUNNING, and the tool-id selection is idempotent. -/
theorem initialize_node_obs_idem (reg : Registry) (st : WorkflowState)
    (hpath : ¬ st.target.path = "") (hstat : st.status = .RUNNING)
    (hg : st.tool_ids.isEmpty = true → reg.get_tool_ids = st.tool_ids) :
    (initialize_node reg st).obs = st.obs := by
  unfold initialize_node
  rw [if_neg hpath]
  by_cases hemp : st.tool_ids.isEmpty = true
  · simp [WorkflowState.obs, WorkflowState.core, hemp, hg hemp, hstat]
  · simp [WorkflowState.obs, WorkflowState.core, hemp, hstat]

/-- On a non-empty path, `initialize_node` sets RUNNING. -/
theorem initialize_node_status_success (reg : Registry) (st : WorkflowState)
    (h : ¬ st.target.path = "") :
    (initialize_node reg st).status = .RUNNING := by
  unfold initialize_node
  rw [if_neg h]
  simp

/-- On a non-empty path, `initialize_node` computes the tool selection
from the previous selection and the registry. -/
theorem initialize_node_tool_ids (reg : Registry) (st : WorkflowState)
    (h : ¬ st.target.path = "") :
    (initialize_node reg st).tool_ids
      = if st.tool_ids.isEmpty then reg.get_tool_ids else st.tool_ids := by
  unfold initialize_node
  rw [if_neg h]
  simp

/-- `initialize_node` never changes the target. -/
theorem initialize_node_target (reg : Registry) (st : WorkflowState) :
    (initialize_node reg st).target = st.target := by
  unfold initialize_node
  split <;> simp [WorkflowState.add_error]

/-- `initialize_node` never changes the context. -/
theorem initialize_node_context (reg : Registry) (st : WorkflowState) :
    (initialize_node reg st).context = st.context := by
  unfold initialize_node
  split <;> simp [WorkflowState.add_error]

namespace Scheduler

/-! Helper lemmas about the scheduler embedding. -/

/-- The retry loop never changes the task id carried by the result. -/
theorem executeSingleTaskGo_task_id (t : Task) :
    ∀ (le : Option String) (k fuel : Nat),
      (executeSingleTaskGo t le k fuel).task_id = t.task_id := by
  intro le k fuel
  induction fuel generalizing le k with
  | zero => rfl
  | succ n ih =>
      simp only [executeSingleTaskGo]
      cases t.func k with
      | ok v => rfl
      | error e => exact ih (some e) (k + 1)

/-- The retry loop never changes the task name carried by the result. -/
theorem executeSingleTaskGo_task_name (t : Task) :
    ∀ (le : Option String) (k fuel : Nat),
      (executeSingleTaskGo t le k fuel).task_name = t.task_name := by
  intro le k fuel
  induction fuel generalizing le k with
  | zero => rfl
  | succ n ih =>
      simp only [executeSingleTaskGo]
      cases t.func k with
      | ok v => rfl
      | error e => exact ih (some e) (k + 1)

/-- `executeSingleTask` keeps the task's id. -/
theorem executeSingleTask_task_id (t : Task) :
    (executeSingleTask t).task_id = t.task_id :=
  executeSingleTaskGo_task_id t none 0 (t.max_retries + 1)

/-- `executeSingleTask` keeps the task's name. -/
theorem executeSingleTask_task_name (t : Task) :
    (executeSingleTask t).task_name = t.task_name :=
  executeSingleTaskGo_task_name t none 0 (t.max_retries + 1)

/-- If every attempt raises `msg`, the retry loop ends FAILED with that
message. -/
theorem executeSingleTaskGo_all_error (t : Task) (msg : String)
    (hf : ∀ k, t.func k = .error msg) :
    ∀ (k fuel : Nat),
      (executeSingleTaskGo t (some msg) k fuel).status = .FAILED ∧
      (executeSingleTaskGo t (some msg) k fuel).error = some msg := by
  intro k fuel
  induction fuel generalizing k with
  | zero => exact ⟨rfl, rfl⟩
  | succ n ih =>
      simp only [executeSingleTaskGo, hf k]
      exact ih (k + 1)

/-- A task whose function raises `msg` on every attempt is represented
by a FAILED result carrying `msg` and `retry_count = max_retries`. -/
theorem executeSingleTask_all_error (t : Task) (msg : String)
    (hf : ∀ k, t.func k = .error msg) :
    (executeSingleTask t).status = .FAILED ∧
    (executeSingleTask t).error = some msg ∧
    (executeSingleTask t).retry_count = t.max_retries := by
  have h := executeSingleTaskGo_all_error t msg hf 1 t.max_retries
  have hr : ∀ (k fuel : Nat),
      (executeSingleTaskGo t (some msg) k fuel).retry_count = t.max_retries := by
    intro k fuel
    induction fuel generalizing k with
    | zero => rfl
    | succ n ih => simp only [executeSingleTaskGo, hf k]; exact ih (k + 1)
  unfold executeSingleTask executeSingleTaskGo
  rw [hf 0]
  exact ⟨h.1, h.2, hr 1 t.max_retries⟩

/-- Every element of a priority bucket has that bucket's priority. -/
theorem mem_priority_bucket {ts : List Task} {p : TaskPriority} {x : Task}
    (hx : x ∈ ts.filter (fun t => t.priority = p)) : x.priority = p := by
  have := List.mem_filter.mp hx
  exact of_decide_eq_true this.2

/-- Moving a task across its own priority bucket: `sortByPriorityDesc`
of `t :: ts` is a permutation of `t` in front of `sortByPriorityDesc ts`. -/
theorem sortByPriorityDesc_cons (t : Task) (ts : List Task) :
    (sortByPriorityDesc (t :: ts)).Perm (t :: sortByPriorityDesc ts) := by
  cases hp : t.priority <;>
    simp [sortByPriorityDesc, List.filter_cons, hp] <;>
    simp only [← List.append_assoc] <;>
    first
      | exact List.Perm.refl _
      | exact List.perm_middle.trans (by simp [List.append_assoc])

/-- `sortByPriorityDesc` permutes the input list (one task in, one task
out). -/
theorem sortByPriorityDesc_perm (ts : List Task) :
    (sortByPriorityDesc ts).Perm ts := by
  induction ts with
  | nil => simp [sortByPriorityDesc]
  | cons t ts ih => exact (sortByPriorityDesc_cons t ts).trans (ih.cons t)

/-- Concatenating priority buckets in weakly-descending bucket order
yields a weakly-descending task list. -/
theorem bucket_flatMap_pairwise (ts : List Task) :
    ∀ ps : List TaskPriority,
      List.Pairwise (fun p q => q.value ≤ p.value) ps →
      List.Pairwise (fun a b => b.priority.value ≤ a.priority.value)
        (ps.flatMap (fun p => ts.filter (fun t => t.priority = p))) := by
  intro ps hps
  induction ps with
  | nil => simp
  | cons p ps ih =>
      rw [List.flatMap_cons]
      refine List.pairwise_append.mpr ⟨?_, ih hps.tail, ?_⟩
      · refine List.pairwise_of_forall_mem_list ?_
        intro a ha b hb
        rw [mem_priority_bucket ha, mem_priority_bucket hb]
      · intro a ha b hb
        obtain ⟨q, hq, hbq⟩ := List.mem_flatMap.mp hb
        rw [mem_priority_bucket ha, mem_priority_bucket hbq]
        exact List.rel_of_pairwise_cons hps hq

/-- `sortByPriorityDesc` is in weakly descending priority order. -/
theorem sortByPriorityDesc_pairwise (ts : List Task) :
    List.Pairwise (fun a b => b.priority.value ≤ a.priority.value)
      (sortByPriorityDesc ts) :=
  bucket_flatMap_pairwise ts [TaskPriority.CRITICAL, .HIGH, .NORMAL, .LOW]
    (by decide)

/-- Restricting a bucket concatenation to one priority `p` gives the
`p` bucket itself, provided `p` occurs in the bucket order exactly
once. -/
theorem bucket_flatMap_filter (ts : List Task) (p : TaskPriority) :
    ∀ ps : List TaskPriority, ps.Nodup → p ∈ ps →
      (ps.flatMap (fun q => ts.filter (fun t => t.priority = q))).filter
          (fun t => t.priority = p)
        = ts.filter (fun t => t.priority = p) := by
  have not_mem : ∀ ps : List TaskPriority, p ∉ ps →
      (ps.flatMap (fun q => ts.filter (fun t => t.priority = q))).filter
          (fun t => t.priority = p) = [] := by
    intro ps hps
    refine List.filter_eq_nil_iff.mpr ?_
    intro a ha
    obtain ⟨q, hq, haq⟩ := List.mem_flatMap.mp ha
    rw [decide_eq_true_eq, mem_priority_bucket haq]
    intro h
    exact hps (h ▸ hq)
  intro ps hnd hmem
  induction ps with
  | nil => cases hmem
  | cons q ps ih =>
      rw [List.flatMap_cons, List.filter_append]
      by_cases hqp : q = p
      · subst hqp
        have h1 : (ts.filter (fun t => t.priority = q)).filter
            (fun t => t.priority = q) = ts.filter (fun t => t.priority = q) :=
          List.filter_eq_self.mpr
            (fun a ha => decide_eq_true (mem_priority_bucket ha))
        have h2 := not_mem ps (List.nodup_cons.mp hnd).1
        rw [h1, h2, List.append_nil]
      · have h1 : (ts.filter (fun t => t.priority = q)).filter
            (fun t => t.priority = p) = [] :=
          List.filter_eq_nil_iff.mpr (fun a ha => by
            rw [decide_eq_true_eq, mem_priority_bucket ha]
            exact hqp)
        have hmem' : p ∈ ps := by
          cases List.mem_cons.mp hmem with
          | inl h => exact absurd h.symm hqp
          | inr h => exact h
        rw [h1, ih (List.nodup_cons.mp hnd).2 hmem', List.nil_append]

/-- Stability: within each priority, `sortByPriorityDesc` keeps the
input order (its restriction to one priority is the input's
restriction). -/
theorem sortByPriorityDesc_stable (ts : List Task) (p : TaskPriority) :
    (sortByPriorityDesc ts).filter (fun t => t.priority = p)
      = ts.filter (fun t => t.priority = p) := by
  refine bucket_flatMap_filter ts p _ (by decide) ?_
  cases p <;> decide

/-- One fold step of `gatherSlots` at a time: after processing the
completion events `σ`, slot `j` holds task `j`'s result if `j`'s
completion is among the events (and `j` is a real slot), and is
untouched otherwise — in particular the final content of a slot does
not depend on the order of the events. -/
theorem gatherSlots_foldl_getElem? (ts : List Task) :
    ∀ (σ : List Nat) (slots : List (Option TaskResult)),
      slots.length = ts.length → ∀ j : Nat,
      (σ.foldl
        (fun s i => s.set i (some (executeSingleTask (ts.getD i default))))
        slots)[j]?
        = if j ∈ σ ∧ j < ts.length
          then some (some (executeSingleTask (ts.getD j default)))
          else slots[j]? := by
  intro σ
  induction σ with
  | nil => intro slots _ j; simp
  | cons i σ ih =>
      intro slots hlen j
      rw [List.foldl_cons]
      have hlen' : (slots.set i
          (some (executeSingleTask (ts.getD i default)))).length = ts.length := by
        rw [List.length_set]; exact hlen
      rw [ih _ hlen' j]
      by_cases hjσ : j ∈ σ ∧ j < ts.length
      · simp [hjσ, List.mem_cons.mpr (Or.inr hjσ.1), hjσ.2]
      · simp only [hjσ, if_false]
        by_cases hij : i = j
        · subst hij
          by_cases hi : i < ts.length
          · rw [List.getElem?_set_eq_of_lt _ (hlen ▸ hi)]
            simp [hi, List.mem_cons]
          · rw [List.set_eq_of_length_le (by rw [hlen]; exact Nat.le_of_not_lt hi)]
            simp only [List.mem_cons, true_or, true_and]
            simp [hi]
        · rw [List.getElem?_set_ne hij]
          have : ¬ (j ∈ i :: σ ∧ j < ts.length) := by
            rintro ⟨hmem, hlt⟩
            rcases List.mem_cons.mp hmem with h | h
            · exact hij h.symm
            · exact hjσ ⟨h, hlt⟩
          simp only [this, if_false]

/-- `asyncio.gather` is positional: for every finish order that is a
permutation of the task indices, the slots end up holding exactly the
per-task results, in task order. -/
theorem gatherSlots_eq (ts : List Task) (σ : List Nat)
    (hσ : σ.Perm (List.range ts.length)) :
    gatherSlots ts σ = ts.map (fun t => some (executeSingleTask t)) := by
  have hmemσ : ∀ j, j ∈ σ ↔ j < ts.length := by
    intro j
    rw [hσ.mem_iff, List.mem_range]
  refine List.ext_getElem? ?_
  intro j
  unfold gatherSlots
  rw [gatherSlots_foldl_getElem? ts σ (List.replicate ts.length none)
        (List.length_replicate _ _) j]
  by_cases hj : j < ts.length
  · have hgd : ts.getD j default = ts[j] := by
      simp [List.getD_eq_getElem?_getD, List.getElem?_eq_getElem hj]
    simp [hj, (hmemσ j).mpr hj, hgd, List.getElem?_map,
      List.getElem?_eq_getElem hj]
  · have : ¬ j ∈ σ := fun h => hj ((hmemσ j).mp h)
    simp [hj, this, List.getElem?_eq_none,
      Nat.le_of_not_lt hj]

/-- The retry loop only ever returns SUCCESS or FAILED. -/
theorem executeSingleTaskGo_status (t : Task) :
    ∀ (le : Option String) (k fuel : Nat),
      (executeSingleTaskGo t le k fuel).status = TaskStatus.SUCCESS ∨
      (executeSingleTaskGo t le k fuel).status = TaskStatus.FAILED := by
  intro le k fuel
  induction fuel generalizing le k with
  | zero => exact Or.inr rfl
  | succ n ih =>
      simp only [executeSingleTaskGo]
      cases t.func k with
      | ok v => exact Or.inl rfl
      | error e => exact ih (some e) (k + 1)

/-- `executeSingleTask` returns SUCCESS or FAILED — never SKIPPED. -/
theorem executeSingleTask_status (t : Task) :
    (executeSingleTask t).status = TaskStatus.SUCCESS ∨
    (executeSingleTask t).status = TaskStatus.FAILED :=
  executeSingleTaskGo_status t none 0 (t.max_retries + 1)

end Scheduler

/-! ### Claim theorems -/

/-- Sanity: the threshold constant is the rational `0.3 = 3/10`. -/
theorem confidenceThreshold_eq : confidenceThreshold = 3 / 10 := by
  rw [confidenceThreshold, Rat.mk'_eq_divInt, Rat.divInt_eq_div]; norm_num

/-- C1 counterexample: the CODE_COMMIT run over the stub SAST tool
completes SUCCESS with one finding when uninterrupted, but pausing at
the node boundary after the scan node and then resuming completes
SUCCESS with that finding duplicated — the final findings multiset
differs, refuting the claim that `pause; resume` yields the same final
findings multiset. -/
theorem C1_pause_resume_counterexample :
    ((execute_workflow reg1 cfg0 none runCC).1.state.status = TaskStatus.SUCCESS) ∧
    ((execute_workflow reg1 cfg0 none runCC).1.state.vulnerabilities.length = 1) ∧
    ((execute_workflow reg1 cfg0 (some 1) runCC).1.state.status = TaskStatus.PAUSED) ∧
    ((resume_workflow reg1 cfg0
        (execute_workflow reg1 cfg0 (some 1) runCC).1).1.state.status
      = TaskStatus.SUCCESS) ∧
    ¬ ((resume_workflow reg1 cfg0
        (execute_workflow reg1 cfg0 (some 1) runCC).1).1.state.vulnerabilities.Perm
      (execute_workflow reg1 cfg0 none runCC).1.state.vulnerabilities) := by
  decide

/-- C1 (amended): a pause landing at the node boundary *before any scan
node has run* (right after `initialize`) followed by `resume` yields
the same final status and the same final findings as the uninterrupted
run, for every registry and workflow kind — because `resume` restarts
the walk at `initialize`, whose re-execution is observationally
idempotent.  (The counterexample shows that a pause after a scan node
duplicates that node's findings, because the restarted walk runs the
scan again on top of the already-accumulated findings.) -/
theorem C1_pause_resume_amended (reg : Registry) (cfg : WorkflowConfig)
    (wt : WorkflowType) (path : String) (ids : List String)
    (hpath : path ≠ "") :
    ((resume_workflow reg cfg
        (execute_workflow reg cfg (some 0)
          (create_workflow wt ⟨path⟩ ids)).1).1.state.status
      = (execute_workflow reg cfg none
          (create_workflow wt ⟨path⟩ ids)).1.state.status) ∧
    ((resume_workflow reg cfg
        (execute_workflow reg cfg (some 0)
          (create_workflow wt ⟨path⟩ ids)).1).1.state.vulnerabilities
      = (execute_workflow reg cfg none
          (create_workflow wt ⟨path⟩ ids)).1.state.vulnerabilities) := by
  set base : EngineRun := create_workflow wt ⟨path⟩ ids with hbase
  have hbpath : ¬ base.state.target.path = "" := hpath
  set D1 := engineStep reg cfg none initialize_node 0 base with hD1
  set P1 := engineStep reg cfg (some 0) initialize_node 0 base with hP1
  have hD1s : D1.state.status = .RUNNING := by
    rw [hD1, engineStep_none_status]
    exact initialize_node_status_success reg base.state hbpath
  have hP1s : P1.state.status = .PAUSED := by
    rw [hP1]
    apply engineStep_pause_taken_status
    rw [WorkflowState.is_completed,
      initialize_node_status_success reg base.state hbpath]
    rfl
  -- the paused execution stops right after `initialize`
  have hpause : execute_workflow reg cfg (some 0) base
      = (P1, (nodeSequence wt).tail.isEmpty) := by
    show engineWalk reg cfg (some 0) (nodeSequence wt) 0 base = _
    rw [nodeSequence_head wt, engineWalk, ← hP1,
      if_pos (by simp [WorkflowState.is_paused, hP1s])]
    rfl
  -- the direct execution continues into the tail from D1
  have hdirect : execute_workflow reg cfg none base
      = engineWalk reg cfg none (nodeSequence wt).tail 1 D1 := by
    show engineWalk reg cfg none (nodeSequence wt) 0 base = _
    rw [nodeSequence_head wt, engineWalk, ← hD1,
      if_neg (by simp [WorkflowState.is_paused, hD1s]),
      if_neg (by simp [hD1s])]
    rfl
  -- the resumed engine entry
  set eR : EngineRun :=
    { P1 with state := { P1.state with status := TaskStatus.RUNNING } }
    with heR
  have hresume_def : resume_workflow reg cfg P1
      = execute_workflow reg cfg none eR := rfl
  have hercore : eR.state.core = (initialize_node reg base.state).core := by
    rw [heR]
    show P1.state.core = _
    rw [hP1]
    exact engineStep_core reg cfg (some 0) initialize_node 0 base
  have herctx : eR.state.context = base.state.context := by
    have h1 := congrArg (fun c => c.1) hercore
    simpa [WorkflowState.core, initialize_node_context] using h1
  have hert : eR.state.target = base.state.target := by
    have h1 := congrArg (fun c => c.2.1) hercore
    simpa [WorkflowState.core, initialize_node_target] using h1
  have herpath : ¬ eR.state.target.path = "" := by
    rw [hert]
    exact hbpath
  have hseq : nodeSequence eR.state.context.workflow_type = nodeSequence wt := by
    rw [herctx]
    rfl
  -- observational equality of the two post-initialize states
  have hI1path : ¬ (initialize_node reg base.state).target.path = "" := by
    rw [initialize_node_target]
    exact hbpath
  have hI1g : (initialize_node reg base.state).tool_ids.isEmpty = true →
      reg.get_tool_ids = (initialize_node reg base.state).tool_ids := by
    rw [initialize_node_tool_ids reg base.state hbpath]
    by_cases hbe : base.state.tool_ids.isEmpty
    · intro _
      simp [hbe]
    · intro hx
      rw [if_neg hbe] at hx
      exact absurd hx (by simpa using hbe)
  have herobs : eR.state.obs = (initialize_node reg base.state).obs := by
    unfold WorkflowState.obs
    rw [hercore]
    refine Prod.ext ?_ rfl
    show TaskStatus.RUNNING = _
    rw [initialize_node_status_success reg base.state hbpath]
  have hinitCongr : ObsCongr initialize_node :=
    obsCongr_nodeSequence wt initialize_node
      (by rw [nodeSequence_head wt]; exact List.mem_cons_self _ _)
  set R1 := engineStep reg cfg none initialize_node 0 eR with hR1
  have hR1obs : R1.state.obs = D1.state.obs := by
    rw [hR1, engineStep_none_obs, hD1, engineStep_none_obs]
    refine (hinitCongr reg eR.state (initialize_node reg base.state)
      herobs).trans ?_
    exact initialize_node_obs_idem reg (initialize_node reg base.state)
      hI1path (initialize_node_status_success reg base.state hbpath) hI1g
  have hR1s : R1.state.status = .RUNNING := by
    rw [hR1, engineStep_none_status]
    exact initialize_node_status_success reg eR.state herpath
  -- the resumed execution continues into the tail from R1
  have hresumed : resume_workflow reg cfg P1
      = engineWalk reg cfg none (nodeSequence wt).tail 1 R1 := by
    rw [hresume_def]
    show engineWalk reg cfg none
      (nodeSequence eR.state.context.workflow_type) 0 eR = _
    rw [hseq, nodeSequence_head wt, engineWalk, ← hR1,
      if_neg (by simp [WorkflowState.is_paused, hR1s]),
      if_neg (by simp [hR1s])]
    rfl
  -- both walks over the tail end observationally equal
  have htail : ∀ f ∈ (nodeSequence wt).tail, ObsCongr f := by
    intro f hf
    exact obsCongr_nodeSequence wt f
      (by rw [nodeSequence_head wt]; exact List.mem_cons_of_mem _ hf)
  have hfinal : (engineWalk reg cfg none (nodeSequence wt).tail 1 R1).1.state.obs
      = (engineWalk reg cfg none (nodeSequence wt).tail 1 D1).1.state.obs :=
    engineWalk_obs_congr reg cfg (nodeSequence wt).tail 1 1 R1 D1 htail hR1obs
  rw [hpause]
  show (resume_workflow reg cfg P1).1.state.status
      = (execute_workflow reg cfg none base).1.state.status ∧
    (resume_workflow reg cfg P1).1.state.vulnerabilities
      = (execute_workflow reg cfg none base).1.state.vulnerabilities
  rw [hresumed, hdirect]
  exact ⟨congrArg Prod.fst hfinal,
    congrArg (fun o => o.2.2.2.2.1) hfinal⟩

/-- C1 witness: the amended statement at the concrete CODE_COMMIT run
over the stub SAST registry. -/
theorem C1_pause_resume_amended_witness :
    ((resume_workflow reg1 cfg0
        (execute_workflow reg1 cfg0 (some 0)
          (create_workflow .CODE_COMMIT ⟨"/p"⟩ ["stub-sast"])).1).1.state.status
      = (execute_workflow reg1 cfg0 none
          (create_workflow .CODE_COMMIT ⟨"/p"⟩ ["stub-sast"])).1.state.status) ∧
    ((resume_workflow reg1 cfg0
        (execute_workflow reg1 cfg0 (some 0)
          (create_workflow .CODE_COMMIT ⟨"/p"⟩ ["stub-sast"])).1).1.state.vulnerabilities
      = (execute_workflow reg1 cfg0 none
          (create_workflow .CODE_COMMIT ⟨"/p"⟩ ["stub-sast"])).1.state.vulnerabilities) :=
  C1_pause_resume_amended reg1 cfg0 .CODE_COMMIT "/p" ["stub-sast"] (by decide)

/-- C2: evaluation of `validation_node` at a semgrep-style finding whose
confidence score is 90 — far above any 0.3 threshold.  The node drops
it anyway, because it looks up `confidence_score` inside the `severity`
dictionary (a key that no adapter-produced finding has) and so compares
the default `0` against `0.3`.  The kept/dropped counts are recorded as
the source does (original 1, validated 0, filtered 1). -/
theorem C2_validation_drops_high_confidence :
    ((vulnSem.confidence.getD {}).score = some 90) ∧
    ((validation_node regEmpty stVal).vulnerabilities = []) ∧
    ((validation_node regEmpty stVal).node_results.map
        (fun r => (r.output.original_count, r.output.validated_count,
                   r.output.filtered_count))
      = [(some 1, some 0, some 1)]) := by
  decide

/-- C3: for a run created by the engine whose node walk reaches the end
of its sequence, the final status is SUCCESS when the error list is
empty and FAILED when it is not (a non-empty error list in fact forces
FAILED even without reaching the end, and reaching the end forces
SUCCESS — a node that records an error also fails the run and the walk
then stops early). -/
theorem C3_final_status (reg : Registry) (cfg : WorkflowConfig)
    (wt : WorkflowType) (target : ScanTarget) (ids : List String)
    (hdone : (execute_workflow reg cfg none (create_workflow wt target ids)).2
      = true) :
    ((execute_workflow reg cfg none
        (create_workflow wt target ids)).1.state.errors = [] →
      (execute_workflow reg cfg none
        (create_workflow wt target ids)).1.state.status = .SUCCESS) ∧
    ((execute_workflow reg cfg none
        (create_workflow wt target ids)).1.state.errors ≠ [] →
      (execute_workflow reg cfg none
        (create_workflow wt target ids)).1.state.status = .FAILED) := by
  have hInv0 : Inv (create_workflow wt target ids).state := by
    refine ⟨fun h => ?_, fun h => ?_, by simp [create_workflow]⟩ <;>
      simp [create_workflow] at h
  have hnf0 : (create_workflow wt target ids).state.status ≠ .FAILED := by
    simp [create_workflow]
  have hsucc := engineWalk_completed_success reg cfg
    (nodeSequence wt) 0 (create_workflow wt target ids)
    (preservesInv_nodeSequence wt) hInv0 hnf0 (nodeSequence_getLast wt) hdone
  exact ⟨fun _ => hsucc, fun herr => absurd herr (by
    have hInv := engineWalk_inv reg cfg none (nodeSequence wt) 0
      (create_workflow wt target ids) (preservesInv_nodeSequence wt)
      hInv0 hnf0
    intro hne
    have := hInv.2.1 hne
    rw [hsucc] at this
    cases this)⟩

/-- C3 witness: the concrete CODE_COMMIT run completes all its nodes;
its error list is empty and its status is SUCCESS. -/
theorem C3_final_status_witness :
    ((execute_workflow reg1 cfg0 none
        (create_workflow .CODE_COMMIT ⟨"/p"⟩ ["stub-sast"])).1.state.errors = [] →
      (execute_workflow reg1 cfg0 none
        (create_workflow .CODE_COMMIT ⟨"/p"⟩ ["stub-sast"])).1.state.status
        = .SUCCESS) ∧
    ((execute_workflow reg1 cfg0 none
        (create_workflow .CODE_COMMIT ⟨"/p"⟩ ["stub-sast"])).1.state.errors ≠ [] →
      (execute_workflow reg1 cfg0 none
        (create_workflow .CODE_COMMIT ⟨"/p"⟩ ["stub-sast"])).1.state.status
        = .FAILED) :=
  C3_final_status reg1 cfg0 .CODE_COMMIT ⟨"/p"⟩ ["stub-sast"] (by decide)

/-- C4 counterexample: a single-scan node in which the only tool fails
records the failure in `tool_results` but appends a node result with
status SUCCESS — refuting "the node's NodeResult status is FAILED
precisely when all tools in the node failed". -/
theorem C4_all_tools_failed_counterexample :
    ((single_scan_node regFail stBad).node_results.map
        (fun r => (r.status, r.tool_results.map (fun t => t.status)))
      = [(TaskStatus.SUCCESS, [TaskStatus.FAILED])]) ∧
    ¬ (∀ r ∈ (single_scan_node regFail stBad).node_results,
        r.tool_results ≠ [] →
        (∀ t ∈ r.tool_results, t.status = TaskStatus.FAILED) →
        r.status = TaskStatus.FAILED) := by
  decide

/-- C4 (amended): in both scan nodes every tool failure is recorded in
the node's `tool_results` (status FAILED exactly for the tools whose
scan was not successful, with the response's error message), and the
appended node result's own status is SUCCESS *regardless* of how many
tools failed — the node is never FAILED on account of tool failures. -/
theorem C4_scan_amended (reg : Registry) (st : WorkflowState)
    (hne : st.tool_ids ≠ []) :
    (∃ r : NodeResult,
      (single_scan_node reg st).node_results = st.node_results ++ [r] ∧
      r.status = .SUCCESS ∧
      r.tool_results.map (fun t => t.tool_id) = st.tool_ids ∧
      (∀ t ∈ r.tool_results,
        (t.status = TaskStatus.FAILED ↔
          (scan_with_tool reg t.tool_id).success = false) ∧
        t.error = (scan_with_tool reg t.tool_id).error)) ∧
    (∃ r : NodeResult,
      (parallel_scan_node reg st).node_results = st.node_results ++ [r] ∧
      r.status = .SUCCESS ∧
      r.tool_results.map (fun t => t.tool_id) = st.tool_ids ∧
      (∀ t ∈ r.tool_results,
        (t.status = TaskStatus.FAILED ↔
          (scan_with_tool reg t.tool_id).success = false) ∧
        t.error = (scan_with_tool reg t.tool_id).error)) := by
  have hresp : scan_with_multiple_tools reg st.tool_ids
      = st.tool_ids.map (scan_with_tool reg) := by
    unfold scan_with_multiple_tools
    rw [if_neg (by simp [hne])]
  have hid1 : ∀ tid, ((scanToolStep reg tid).1).tool_id = tid := fun _ => rfl
  have hmem1 : ∀ tid,
      ((((scanToolStep reg tid).1).status = TaskStatus.FAILED ↔
        (scan_with_tool reg ((scanToolStep reg tid).1).tool_id).success
          = false) ∧
      ((scanToolStep reg tid).1).error
        = (scan_with_tool reg ((scanToolStep reg tid).1).tool_id).error) := by
    intro tid
    rw [hid1 tid]
    constructor
    · cases hs : (scan_with_tool reg tid).success <;>
        simp [scanToolStep, hs]
    · rfl
  have hid2 : ∀ tid,
      ((parallelResponseStep (scan_with_tool reg tid)).1).tool_id = tid := by
    intro tid
    show (scan_with_tool reg tid).tool_id = tid
    exact scan_with_tool_tool_id reg tid
  have hmem2 : ∀ tid,
      ((((parallelResponseStep (scan_with_tool reg tid)).1).status
          = TaskStatus.FAILED ↔
        (scan_with_tool reg
          ((parallelResponseStep (scan_with_tool reg tid)).1).tool_id).success
          = false) ∧
      ((parallelResponseStep (scan_with_tool reg tid)).1).error
        = (scan_with_tool reg
            ((parallelResponseStep (scan_with_tool reg tid)).1).tool_id).error) := by
    intro tid
    rw [hid2 tid]
    constructor
    · cases hs : (scan_with_tool reg tid).success <;>
        simp [parallelResponseStep, hs]
    · rfl
  have hres1 : (singleScanResult reg st).tool_results
      = st.tool_ids.map (fun tid => (scanToolStep reg tid).1) := by
    show (st.tool_ids.map (scanToolStep reg)).map Prod.fst = _
    rw [List.map_map]
    rfl
  have hres2 : (parallelScanResult reg st).tool_results
      = st.tool_ids.map
          (fun tid => (parallelResponseStep (scan_with_tool reg tid)).1) := by
    show ((scan_with_multiple_tools reg st.tool_ids).map
        parallelResponseStep).map Prod.fst = _
    rw [hresp, List.map_map, List.map_map]
    rfl
  constructor
  · refine ⟨singleScanResult reg st, ?_, rfl, ?_, ?_⟩
    · simp [single_scan_node]
    · rw [hres1, List.map_map]
      exact (List.map_congr_left (fun tid _ => hid1 tid)).trans
        (List.map_id _)
    · intro t ht
      rw [hres1] at ht
      obtain ⟨tid, _, rfl⟩ := List.mem_map.mp ht
      exact hmem1 tid
  · refine ⟨parallelScanResult reg st, ?_, rfl, ?_, ?_⟩
    · simp [parallel_scan_node]
    · rw [hres2, List.map_map]
      exact (List.map_congr_left (fun tid _ => hid2 tid)).trans
        (List.map_id _)
    · intro t ht
      rw [hres2] at ht
      obtain ⟨tid, _, rfl⟩ := List.mem_map.mp ht
      exact hmem2 tid

/-- C4 witness: the amended statement at the failing single-tool state
(the node result is SUCCESS while its only tool result is FAILED). -/
theorem C4_scan_amended_witness :
    ∃ r : NodeResult,
      (single_scan_node regFail stBad).node_results
        = stBad.node_results ++ [r] ∧
      r.status = .SUCCESS ∧
      r.tool_results.map (fun t => t.tool_id) = stBad.tool_ids ∧
      (∀ t ∈ r.tool_results,
        (t.status = TaskStatus.FAILED ↔
          (scan_with_tool regFail t.tool_id).success = false) ∧
        t.error = (scan_with_tool regFail t.tool_id).error) :=
  (C4_scan_amended regFail stBad (by decide)).1

/-- C6 counterexample: a run created with empty `tool_ids` against an
empty registry ends SUCCESS with zero findings and an empty error list —
refuting "if none are registered, the run ends FAILED with a descriptive
error". -/
theorem C6_empty_registry_counterexample :
    ((execute_workflow regEmpty cfg0 none
        (create_workflow .CODE_COMMIT ⟨"/p"⟩ [])).1.state.status
      = TaskStatus.SUCCESS) ∧
    ((execute_workflow regEmpty cfg0 none
        (create_workflow .CODE_COMMIT ⟨"/p"⟩ [])).1.state.errors = []) ∧
    ((execute_workflow regEmpty cfg0 none
        (create_workflow .CODE_COMMIT ⟨"/p"⟩ [])).1.state.vulnerabilities = []) ∧
    TaskStatus.SUCCESS ≠ TaskStatus.FAILED := by
  decide

/-- C6 (amended): a run created with empty `tool_ids` selects all
registered tool ids (in particular the empty selection when nothing is
registered); with an empty registry the run does *not* end FAILED: it
completes SUCCESS with zero findings and no recorded error (for every
workflow kind that does not pause for human review). -/
theorem C6_empty_toolids_amended (reg : Registry) (cfg : WorkflowConfig)
    (wt : WorkflowType) (path : String) (hpath : path ≠ "") :
    ((execute_workflow reg cfg none
        (create_workflow wt ⟨path⟩ [])).1.state.tool_ids
      = reg.get_tool_ids) ∧
    (∀ wt', wt' ≠ WorkflowType.RELEASE_REGRESSION →
      ((execute_workflow regEmpty cfg0 none
          (create_workflow wt' ⟨"/p"⟩ [])).1.state.status = .SUCCESS ∧
       (execute_workflow regEmpty cfg0 none
          (create_workflow wt' ⟨"/p"⟩ [])).1.state.vulnerabilities = [] ∧
       (execute_workflow regEmpty cfg0 none
          (create_workflow wt' ⟨"/p"⟩ [])).1.state.errors = [])) := by
  constructor
  · have hinit : (initialize_node reg
        (create_workflow wt ⟨path⟩ []).state).tool_ids = reg.get_tool_ids := by
      simp [initialize_node, create_workflow, hpath]
    have hstat : (initialize_node reg
        (create_workflow wt ⟨path⟩ []).state).status = .RUNNING := by
      simp [initialize_node, create_workflow, hpath]
    show (engineWalk reg cfg none (nodeSequence wt) 0
        (create_workflow wt ⟨path⟩ [])).1.state.tool_ids = reg.get_tool_ids
    rw [nodeSequence_head wt, engineWalk]
    have h3ids := engineStep_tool_ids reg cfg none initialize_node 0
      (create_workflow wt ⟨path⟩ [])
    have h3s := engineStep_none_status reg cfg initialize_node 0
      (create_workflow wt ⟨path⟩ [])
    rw [hstat] at h3s
    rw [if_neg (by simp [WorkflowState.is_paused, h3s]),
      if_neg (by simp [h3s])]
    rw [engineWalk_tool_ids reg cfg none _ 1 _ (preservesToolIds_tail wt),
      h3ids, hinit]
  · intro wt' h
    cases wt' <;> first
      | (exact absurd rfl h)
      | exact ⟨by decide, by decide, by decide⟩

/-- C6 witness: the amended statement at a non-empty path, with the
two-tool registry for the selection conjunct. -/
theorem C6_empty_toolids_amended_witness :
    ((execute_workflow reg2 cfg0 none
        (create_workflow .EMERGENCY_VULN ⟨"/p"⟩ [])).1.state.tool_ids
      = reg2.get_tool_ids) ∧
    (∀ wt', wt' ≠ WorkflowType.RELEASE_REGRESSION →
      ((execute_workflow regEmpty cfg0 none
          (create_workflow wt' ⟨"/p"⟩ [])).1.state.status = .SUCCESS ∧
       (execute_workflow regEmpty cfg0 none
          (create_workflow wt' ⟨"/p"⟩ [])).1.state.vulnerabilities = [] ∧
       (execute_workflow regEmpty cfg0 none
          (create_workflow wt' ⟨"/p"⟩ [])).1.state.errors = [])) :=
  C6_empty_toolids_amended reg2 cfg0 .EMERGENCY_VULN "/p" (by decide)

/-- C7 counterexample: after the first execution of a
RELEASE_REGRESSION run the state has `requires_human_review = true` and
exactly one human-review node result, but `resume` re-walks the whole
sequence and appends a second PAUSED human-review result while
`requires_human_review` is still true — refuting "exactly one … at every
point in the run's lifetime, including after resume". -/
theorem C7_after_resume_counterexample :
    ((execute_workflow reg2 cfg0 none runRR).1.state.node_results.countP
        (fun r => r.node_type = NodeType.HUMAN_REVIEW) = 1) ∧
    ((resume_workflow reg2 cfg0
        (execute_workflow reg2 cfg0 none runRR).1).1.state.requires_human_review
      = true) ∧
    ((resume_workflow reg2 cfg0
        (execute_workflow reg2 cfg0 none runRR).1).1.state.node_results.countP
        (fun r => r.node_type = NodeType.HUMAN_REVIEW) = 2) := by
  decide

/-- C5 counterexample: save a checkpoint (the one written after the
`initialize` node, id 0), then mutate the run's state by resuming the
walk — the state obtained by loading checkpoint 0 afterwards differs
from the state it held when it was saved, because the checkpoint stores
a reference to the run's single live state object, not a copy. -/
theorem C5_checkpoint_mutation_counterexample :
    (checkpointStateView (execute_workflow reg1 cfg0 (some 0) runCC).1 0
      = some (execute_workflow reg1 cfg0 (some 0) runCC).1.state) ∧
    (checkpointStateView
        (resume_workflow reg1 cfg0 (execute_workflow reg1 cfg0 (some 0) runCC).1).1 0
      ≠ checkpointStateView (execute_workflow reg1 cfg0 (some 0) runCC).1 0) := by
  decide

/-- C8 counterexample: `schedule_sequential` runs the submitted list in
its own order — a strictly lower-priority task submitted first is
executed first — refuting "executes its tasks in priority-descending
order" (only `schedule_parallel` sorts by priority). -/
theorem C8_submission_order_counterexample :
    ((Scheduler.schedule_sequential [tLow, tHigh] false).map
        (fun r => r.task_id) = ["low-task", "high-task"]) ∧
    tLow.priority.value < tHigh.priority.value := by
  decide

/-- C5 (amended): a checkpoint stores a *reference* to the run's live
state, not an immutable copy, so dereferencing it always yields the
current state; and because every node only appends to the node-result
log, the log the checkpoint's state held at save time is a prefix of
the log after resuming and continuing execution. -/
theorem C5_checkpoint_amended (reg : Registry) (cfg : WorkflowConfig)
    (e : EngineRun) (cid : Nat)
    (hcid : e.checkpoints.any (fun cp => cp.checkpoint_id = cid) = true) :
    checkpointStateView e cid = some e.state ∧
    (∃ t, (resume_workflow reg cfg e).1.state.node_results
        = e.state.node_results ++ t) := by
  constructor
  · simp [checkpointStateView, hcid]
  · exact engineWalk_log reg cfg none _ 0 _
      (appendsLog_nodeSequence e.state.context.workflow_type)

/-- C5 witness: the amended statement at the checkpoint written after
the `initialize` node of a concrete paused run. -/
theorem C5_checkpoint_amended_witness :
    checkpointStateView (execute_workflow reg1 cfg0 (some 0) runCC).1 0
      = some (execute_workflow reg1 cfg0 (some 0) runCC).1.state ∧
    (∃ t, (resume_workflow reg1 cfg0
        (execute_workflow reg1 cfg0 (some 0) runCC).1).1.state.node_results
      = (execute_workflow reg1 cfg0 (some 0) runCC).1.state.node_results ++ t) :=
  C5_checkpoint_amended reg1 cfg0 _ 0 (by decide)

/-- C7 (amended): at the end of the *first* execution of a
RELEASE_REGRESSION run (before any resume), `requires_human_review` is
true, the node-result log holds exactly one human-review result, and
that result's status is PAUSED.  (The counterexample shows the
uniqueness is violated after `resume`, which re-walks the sequence and
appends a second PAUSED human-review result.) -/
theorem C7_first_execution_amended (reg : Registry) (cfg : WorkflowConfig)
    (path : String) (ids : List String) (hpath : path ≠ "") :
    ((execute_workflow reg cfg none
        (create_workflow .RELEASE_REGRESSION ⟨path⟩ ids)).1.state.requires_human_review
      = true) ∧
    ((execute_workflow reg cfg none
        (create_workflow .RELEASE_REGRESSION ⟨path⟩ ids)).1.state.node_results.countP
        (fun r => r.node_type = NodeType.HUMAN_REVIEW) = 1) ∧
    (∀ r ∈ (execute_workflow reg cfg none
        (create_workflow .RELEASE_REGRESSION ⟨path⟩ ids)).1.state.node_results,
      r.node_type = NodeType.HUMAN_REVIEW → r.status = .PAUSED) := by
  set e0 : EngineRun := create_workflow .RELEASE_REGRESSION ⟨path⟩ ids with he0
  set E1 := engineStep reg cfg none initialize_node 0 e0 with hE1
  set E2 := engineStep reg cfg none parallel_scan_node 1 E1 with hE2
  set E3 := engineStep reg cfg none result_collection_node 2 E2 with hE3
  set E4 := engineStep reg cfg none validation_node 3 E3 with hE4
  set E5 := engineStep reg cfg none human_review_node 4 E4 with hE5
  have h1s : E1.state.status = .RUNNING := by
    rw [hE1, engineStep_none_status]
    simp [initialize_node, he0, create_workflow, hpath]
  have h2s : E2.state.status = .RUNNING := by
    rw [hE2, engineStep_none_status, parallel_scan_node_status, h1s]
  have h3s : E3.state.status = .RUNNING := by
    rw [hE3, engineStep_none_status, result_collection_node_status, h2s]
  have h4s : E4.state.status = .RUNNING := by
    rw [hE4, engineStep_none_status, validation_node_status, h3s]
  have h5s : E5.state.status = .PAUSED := by
    rw [hE5, engineStep_none_status, human_review_node_status]
  have hwalk : execute_workflow reg cfg none e0 = (E5, false) := by
    show engineWalk reg cfg none
      [initialize_node, parallel_scan_node, result_collection_node,
       validation_node, human_review_node, finalize_node] 0 e0 = (E5, false)
    rw [engineWalk, ← hE1,
      if_neg (by simp [WorkflowState.is_paused, h1s]),
      if_neg (by simp [h1s])]
    show engineWalk reg cfg none
      [parallel_scan_node, result_collection_node, validation_node,
       human_review_node, finalize_node] 1 E1 = (E5, false)
    rw [engineWalk, ← hE2,
      if_neg (by simp [WorkflowState.is_paused, h2s]),
      if_neg (by simp [h2s])]
    show engineWalk reg cfg none
      [result_collection_node, validation_node, human_review_node,
       finalize_node] 2 E2 = (E5, false)
    rw [engineWalk, ← hE3,
      if_neg (by simp [WorkflowState.is_paused, h3s]),
      if_neg (by simp [h3s])]
    show engineWalk reg cfg none
      [validation_node, human_review_node, finalize_node] 3 E3 = (E5, false)
    rw [engineWalk, ← hE4,
      if_neg (by simp [WorkflowState.is_paused, h4s]),
      if_neg (by simp [h4s])]
    show engineWalk reg cfg none
      [human_review_node, finalize_node] 4 E4 = (E5, false)
    rw [engineWalk, ← hE5,
      if_pos (by simp [WorkflowState.is_paused, h5s])]
    rfl
  obtain ⟨⟨r1, h1log, h1ty⟩, h1r⟩ := initialize_node_shape reg e0.state
  obtain ⟨⟨r2, h2log, h2ty⟩, h2r⟩ := parallel_scan_node_shape reg E1.state
  obtain ⟨⟨r3, h3log, h3ty⟩, h3r⟩ := result_collection_node_shape reg E2.state
  obtain ⟨⟨r4, h4log, h4ty⟩, h4r⟩ := validation_node_shape reg E3.state
  obtain ⟨⟨r5, h5log, h5ty, h5st⟩, h5r⟩ := human_review_node_shape reg E4.state
  have hl1 : E1.state.node_results = [r1] := by
    rw [hE1, engineStep_node_results, h1log, he0]
    rfl
  have hl2 : E2.state.node_results = [r1, r2] := by
    rw [hE2, engineStep_node_results, h2log, hl1]
    rfl
  have hl3 : E3.state.node_results = [r1, r2, r3] := by
    rw [hE3, engineStep_node_results, h3log, hl2]
    rfl
  have hl4 : E4.state.node_results = [r1, r2, r3, r4] := by
    rw [hE4, engineStep_node_results, h4log, hl3]
    rfl
  have hl5 : E5.state.node_results = [r1, r2, r3, r4, r5] := by
    rw [hE5, engineStep_node_results, h5log, hl4]
    rfl
  rw [hwalk]
  refine ⟨?_, ?_, ?_⟩
  · rw [hE5, engineStep_rhr]
    exact (human_review_node_shape reg E4.state).2
  · rw [hl5]
    simp [h1ty, h2ty, h3ty, h4ty, h5ty]
  · intro r hr hty
    rw [hl5] at hr
    simp only [List.mem_cons, List.not_mem_nil, or_false] at hr
    rcases hr with rfl | rfl | rfl | rfl | rfl
    · exact absurd hty (by simp [h1ty])
    · exact absurd hty (by simp [h2ty])
    · exact absurd hty (by simp [h3ty])
    · exact absurd hty (by simp [h4ty])
    · exact h5st

/-- C7 witness: the amended statement at a concrete path. -/
theorem C7_first_execution_amended_witness :
    ((execute_workflow reg2 cfg0 none
        (create_workflow .RELEASE_REGRESSION ⟨"/p"⟩ [])).1.state.requires_human_review
      = true) ∧
    ((execute_workflow reg2 cfg0 none
        (create_workflow .RELEASE_REGRESSION ⟨"/p"⟩ [])).1.state.node_results.countP
        (fun r => r.node_type = NodeType.HUMAN_REVIEW) = 1) ∧
    (∀ r ∈ (execute_workflow reg2 cfg0 none
        (create_workflow .RELEASE_REGRESSION ⟨"/p"⟩ [])).1.state.node_results,
      r.node_type = NodeType.HUMAN_REVIEW → r.status = .PAUSED) :=
  C7_first_execution_amended reg2 cfg0 "/p" [] (by decide)

/-- C9: the cost of the loop `parallel_scan_node` actually runs.  With
two registered adapters of 200 ms each and any parallelism setting, the
sequential loop in `scan_with_multiple_tools` takes the *sum* of the
tool durations — 400 ms, not under 350 ms as the claim requires of a
concurrent dispatch. -/
theorem C9_serial_scan_duration :
    (scanMultipleToolsDuration reg2 ["stub-sast", "stub-sca"] = 400) ∧
    ¬ (scanMultipleToolsDuration reg2 ["stub-sast", "stub-sca"] < 350) := by
  decide

/-- C8 (amended): `schedule_sequential` returns exactly one result per
submitted task *in submission-list order* (not priority order); with
`stop_on_failure` unset it is exactly the per-task execution map; a
SKIPPED result only arises under `stop_on_failure` and always carries
the upstream-failure reason; and when the first FAILED task is reached
under `stop_on_failure`, the output is the executed prefix followed by
that failure and a SKIPPED record for every task not yet started. -/
theorem C8_sequential_amended (tasks : List Scheduler.Task) (sof : Bool) :
    ((Scheduler.schedule_sequential tasks sof).map
        (fun r => (r.task_id, r.task_name))
      = tasks.map (fun t => (t.task_id, t.task_name))) ∧
    (sof = false →
      Scheduler.schedule_sequential tasks sof
        = tasks.map Scheduler.executeSingleTask) ∧
    (∀ r ∈ Scheduler.schedule_sequential tasks sof,
      r.status = TaskStatus.SKIPPED →
        r.error = some "前序任务失败" ∧ sof = true) ∧
    (∀ pre t post, tasks = pre ++ t :: post →
      (∀ p ∈ pre,
        (Scheduler.executeSingleTask p).status ≠ TaskStatus.FAILED) →
      (Scheduler.executeSingleTask t).status = TaskStatus.FAILED →
      Scheduler.schedule_sequential tasks true
        = pre.map Scheduler.executeSingleTask
          ++ Scheduler.executeSingleTask t :: post.map Scheduler.skippedResult) := by
  refine ⟨?_, ?_, ?_, ?_⟩
  · induction tasks with
    | nil => cases sof <;> rfl
    | cons t ts ih =>
        rw [Scheduler.schedule_sequential]
        by_cases hc : sof = true ∧
            (Scheduler.executeSingleTask t).status = TaskStatus.FAILED
        · rw [if_pos hc]
          simp only [List.map_cons, List.map_map]
          rw [Scheduler.executeSingleTask_task_id,
            Scheduler.executeSingleTask_task_name]
          rfl
        · rw [if_neg hc]
          simp only [List.map_cons, ih,
            Scheduler.executeSingleTask_task_id,
            Scheduler.executeSingleTask_task_name]
  · intro hsof
    subst hsof
    induction tasks with
    | nil => rfl
    | cons t ts ih =>
        rw [Scheduler.schedule_sequential,
          if_neg (by simp), ih, List.map_cons]
  · induction tasks with
    | nil => intro r hr; cases hr
    | cons t ts ih =>
        intro r hr hsk
        rw [Scheduler.schedule_sequential] at hr
        by_cases hc : sof = true ∧
            (Scheduler.executeSingleTask t).status = TaskStatus.FAILED
        · rw [if_pos hc] at hr
          rcases List.mem_cons.mp hr with h | h
          · exfalso
            rcases Scheduler.executeSingleTask_status t with hs | hs <;>
              rw [h, hs] at hsk <;> cases hsk
          · obtain ⟨t', _, rfl⟩ := List.mem_map.mp h
            exact ⟨rfl, hc.1⟩
        · rw [if_neg hc] at hr
          rcases List.mem_cons.mp hr with h | h
          · exfalso
            rcases Scheduler.executeSingleTask_status t with hs | hs <;>
              rw [h, hs] at hsk <;> cases hsk
          · exact ih r h hsk
  · intro pre t post htasks hpre hfail
    subst htasks
    induction pre with
    | nil =>
        rw [List.nil_append, Scheduler.schedule_sequential,
          if_pos ⟨rfl, hfail⟩, List.map_nil, List.nil_append]
    | cons p pre ih =>
        rw [List.cons_append, Scheduler.schedule_sequential,
          if_neg (fun hc => hpre p (List.mem_cons_self p pre) hc.2),
          ih (fun q hq => hpre q (List.mem_cons_of_mem p hq)),
          List.map_cons, List.cons_append]

/-- C8 witness: at a concrete two-task list the sequential scheduler
returns one result per task in submission order. -/
theorem C8_sequential_amended_witness :
    (Scheduler.schedule_sequential [tLow, tHigh] false).map
        (fun r => (r.task_id, r.task_name))
      = [("low-task", "Low"), ("high-task", "High")] := by
  rw [(C8_sequential_amended [tLow, tHigh] false).1]
  decide

/-- C10: `schedule_parallel` with `fail_fast = False` runs the tasks in
the stable descending-priority order, returns exactly one result per
submitted task (ids/names are a permutation of the submitted ones), the
positional `gather` makes the result list independent of the order in
which tasks finish, and a task whose function raises on every attempt
is represented by a FAILED result carrying the error message rather
than an escaping exception. -/
theorem C10_schedule_parallel_spec (tasks : List Scheduler.Task)
    (σ : List Nat) (hσ : σ.Perm (List.range tasks.length)) :
    ∃ sorted : List Scheduler.Task,
      sorted.Perm tasks ∧
      List.Pairwise (fun a b => b.priority.value ≤ a.priority.value) sorted ∧
      (∀ p, sorted.filter (fun t => t.priority = p)
          = tasks.filter (fun t => t.priority = p)) ∧
      Scheduler.schedule_parallel tasks
        = sorted.map Scheduler.executeSingleTask ∧
      ((Scheduler.schedule_parallel tasks).map
          (fun r => (r.task_id, r.task_name))).Perm
        (tasks.map (fun t => (t.task_id, t.task_name))) ∧
      Scheduler.gatherSlots sorted σ
        = (Scheduler.schedule_parallel tasks).map some ∧
      (∀ t ∈ tasks, ∀ msg : String, (∀ k, t.func k = .error msg) →
        Scheduler.executeSingleTask t ∈ Scheduler.schedule_parallel tasks ∧
        (Scheduler.executeSingleTask t).status = TaskStatus.FAILED ∧
        (Scheduler.executeSingleTask t).error = some msg) := by
  refine ⟨Scheduler.sortByPriorityDesc tasks,
    Scheduler.sortByPriorityDesc_perm tasks,
    Scheduler.sortByPriorityDesc_pairwise tasks,
    Scheduler.sortByPriorityDesc_stable tasks,
    rfl, ?_, ?_, ?_⟩
  · have h1 : (Scheduler.schedule_parallel tasks).map
        (fun r => (r.task_id, r.task_name))
        = (Scheduler.sortByPriorityDesc tasks).map
            (fun t => (t.task_id, t.task_name)) := by
      rw [Scheduler.schedule_parallel, List.map_map]
      refine List.map_congr_left ?_
      intro t _
      simp [Scheduler.executeSingleTask_task_id,
        Scheduler.executeSingleTask_task_name]
    rw [h1]
    exact (Scheduler.sortByPriorityDesc_perm tasks).map _
  · have hlen : (Scheduler.sortByPriorityDesc tasks).length = tasks.length :=
      (Scheduler.sortByPriorityDesc_perm tasks).length_eq
    rw [Scheduler.gatherSlots_eq _ σ (hlen ▸ hσ),
      Scheduler.schedule_parallel, List.map_map]
    rfl
  · intro t ht msg hmsg
    refine ⟨?_, (Scheduler.executeSingleTask_all_error t msg hmsg).1,
      (Scheduler.executeSingleTask_all_error t msg hmsg).2.1⟩
    rw [Scheduler.schedule_parallel]
    exact List.mem_map_of_mem _
      ((Scheduler.sortByPriorityDesc_perm tasks).symm.subset ht)

/-- C10 witness: the permutation hypothesis holds at a concrete finish
order `[1, 0]` for two tasks, and the ids of the returned results are a
permutation of the submitted ids. -/
theorem C10_schedule_parallel_spec_witness :
    ([1, 0] : List Nat).Perm (List.range [tLow, tHigh].length) ∧
    ((Scheduler.schedule_parallel [tLow, tHigh]).map
        (fun r => (r.task_id, r.task_name))).Perm
      ([tLow, tHigh].map (fun t => (t.task_id, t.task_name))) := by
  refine ⟨by decide, ?_⟩
  obtain ⟨s, h⟩ := C10_schedule_parallel_spec [tLow, tHigh] [1, 0] (by decide)
  exact h.2.2.2.2.1

end SafeFlow
